import Mathlib

/-!
# CodTech: the real-time document editor

A shallow embedding of the synchronisation core of `Real_time_doc_editor_cursor`:

* the socket relay of `server.js` (rooms, `documentStates`, the `join-document`,
  `text-change`, `cursor-position`, `typing` and `disconnect` handlers);
* the durable document routes of `routes/documents.js` (create, fetch, save,
  delete, add collaborator) over the schema of `models/Document.js`;
* the save path and the auto-save timer of
  `client/src/components/DocumentEditor.js`.

JavaScript values are modelled by their protocol types; a field that may be
missing is an `Option`, `none` standing for `undefined`. Counters are `Nat`:
a JavaScript number is an exact integer below `2^53`, far above any counter
reached here.

What socket.io does is taken from its documented behaviour: `socket.join(room)`
adds the socket to the set of the room, `socket.to(room).emit` reaches every
socket of the room but the sending one, `socket.emit` reaches the socket
itself, and a socket leaves all its rooms when it disconnects. On connection
socket.io puts every socket into a room named by the socket's own id, so the
rooms are those made by `socket.join` and these.

A handler that throws stops where it throws, and the state it has reached is
what the model keeps. (In the running server nothing catches the exception of
a socket handler; the statements about histories count only the events whose
handlers run to their end.)
-/

namespace CodTech

/-! ## JavaScript `Map`, in insertion order -/

/-- `Map.prototype.has`. -/
def mapHas {κ ν : Type} [DecidableEq κ] (m : List (κ × ν)) (k : κ) : Bool :=
  m.any (fun p => decide (p.1 = k))

/-- `Map.prototype.get`; `none` is `undefined`. -/
def mapGet {κ ν : Type} [DecidableEq κ] : List (κ × ν) → κ → Option ν
  | [], _ => none
  | (k', v) :: rest, k => if k' = k then some v else mapGet rest k

/-- `Map.prototype.set`: an existing key keeps its place, a new key is appended. -/
def mapSet {κ ν : Type} [DecidableEq κ] : List (κ × ν) → κ → ν → List (κ × ν)
  | [], k, v => [(k, v)]
  | (k', v') :: rest, k, v =>
    if k' = k then (k, v) :: rest else (k', v') :: mapSet rest k v

/-- `Map.prototype.delete`. -/
def mapDelete {κ ν : Type} [DecidableEq κ] (m : List (κ × ν)) (k : κ) : List (κ × ν) :=
  m.filter (fun p => !decide (p.1 = k))

/-! ## The relay of `server.js` -/

/-- The id socket.io gives a connection (`socket.id`). -/
abbrev SocketId := String

/-- The value received as `documentId`; it names the socket.io room and keys
`documentStates`. `none` is `undefined`. -/
abbrev DocumentId := Option String

/-- A value of `documentStates`: `{ content, version }`. -/
structure DocState where
  content : Option String
  version : Nat
deriving DecidableEq, Repr

/-- The `changes` object of a `text-change` payload. -/
structure Changes where
  content : Option String
deriving DecidableEq, Repr

/-- Payload of `text-change`: `{ documentId, changes, userId }`. -/
structure TextChangeData where
  documentId : DocumentId
  changes : Option Changes
  userId : Option String
deriving DecidableEq, Repr

/-- Payload of `cursor-position`: `{ documentId, position, userId }`. -/
structure CursorData where
  documentId : DocumentId
  position : Option Nat
  userId : Option String
deriving DecidableEq, Repr

/-- Payload of `typing`: `{ documentId, isTyping, userId }`. -/
structure TypingData where
  documentId : DocumentId
  isTyping : Option Bool
  userId : Option String
deriving DecidableEq, Repr

/-- What reaches the handlers of `server.js`: a new connection, and what a
connection sends; the payload `data` is `none` when the event arrives without
an argument. -/
inductive Event where
  | connection (socket : SocketId)
  | joinDocument (socket : SocketId) (documentId : DocumentId)
  | textChange (socket : SocketId) (data : Option TextChangeData)
  | cursorPosition (socket : SocketId) (data : Option CursorData)
  | typing (socket : SocketId) (data : Option TypingData)
  | disconnect (socket : SocketId)
deriving DecidableEq, Repr

/-- What the server sends, by event name: `document-state`, `text-change`,
`cursor-position`, `user-typing`. -/
inductive Message where
  | documentState (state : DocState)
  | textChange (changes : Changes) (userId : Option String) (version : Nat)
  | cursorPosition (position : Option Nat) (userId : Option String)
  | userTyping (isTyping : Option Bool) (userId : Option String)
deriving DecidableEq, Repr

/-- Where an emit goes: `socket.emit` reaches the socket itself,
`socket.to(room).emit` reaches the room without the sending socket. -/
inductive Target where
  | socket (s : SocketId)
  | roomExcept (room : DocumentId) (sender : SocketId)
deriving DecidableEq, Repr

/-- One `emit` call of a handler. -/
structure Emission where
  target : Target
  message : Message
deriving DecidableEq, Repr

/-- The state the handlers of `server.js` share: socket.io's room membership
(pairs of socket and room, in join order; the room of a socket's own id is
among them from its connection on) and the two maps declared at the top
level, `connectedUsers` and `documentStates`. -/
structure Relay where
  rooms : List (SocketId × DocumentId)
  connectedUsers : List (SocketId × Unit)
  documentStates : List (DocumentId × DocState)
deriving DecidableEq, Repr

/-- The state at process start: nobody joined, both maps empty. -/
def Relay.init : Relay := ⟨[], [], []⟩

/-- Sockets now in `room`: those that joined it and, when the room is named
by the id of a connected socket, that socket. -/
def members (r : Relay) (room : DocumentId) : List SocketId :=
  (r.rooms.filter (fun p => decide (p.2 = room))).map Prod.fst

/-- socket.io `socket.join(room)`: adding to a set, so joining again changes nothing. -/
def socketJoin (r : Relay) (s : SocketId) (room : DocumentId) : Relay :=
  if (s, room) ∈ r.rooms then r else { r with rooms := r.rooms ++ [(s, room)] }

/-- socket.io leaves every room of a socket when its transport closes. -/
def socketLeaveAll (r : Relay) (s : SocketId) : Relay :=
  { r with rooms := r.rooms.filter (fun p => !decide (p.1 = s)) }

/-- The connections an emission is delivered to. -/
def receivers (r : Relay) : Target → List SocketId
  | .socket s => [s]
  | .roomExcept room sender => (members r room).filter (fun s => !decide (s = sender))

/-- What a handler leaves behind: the new state, its emits in order, and
whether it ended by throwing. -/
structure Outcome where
  relay : Relay
  emits : List Emission
  threw : Bool
deriving DecidableEq, Repr

/-- The `connection` listener: socket.io has put the socket into the room of
its own id; the listener registers the handlers below and changes no state. -/
def onConnection (r : Relay) (socket : SocketId) : Outcome :=
  ⟨socketJoin r socket (some socket), [], false⟩

/-- Handler of `join-document`. -/
def onJoinDocument (r : Relay) (socket : SocketId) (documentId : DocumentId) : Outcome :=
  let r1 := socketJoin r socket documentId
  if mapHas r1.documentStates documentId then
    match mapGet r1.documentStates documentId with
    | some st => ⟨r1, [⟨.socket socket, .documentState st⟩], false⟩
    | none => ⟨r1, [], false⟩
  else ⟨r1, [], false⟩

/-- Handler of `text-change`. Destructuring a missing payload throws before
anything is done; reading `changes.content` of a missing `changes` throws after
the state entry has been ensured. -/
def onTextChange (r : Relay) (socket : SocketId) (data : Option TextChangeData) : Outcome :=
  match data with
  | none => ⟨r, [], true⟩
  | some d =>
    let states1 :=
      if mapHas r.documentStates d.documentId then r.documentStates
      else mapSet r.documentStates d.documentId { content := some "", version := 0 }
    let r1 : Relay := { r with documentStates := states1 }
    match mapGet states1 d.documentId, d.changes with
    | some docState, some changes =>
      let docState1 : DocState := { content := changes.content, version := docState.version + 1 }
      let r2 : Relay := { r1 with documentStates := mapSet states1 d.documentId docState1 }
      ⟨r2, [⟨.roomExcept d.documentId socket,
             .textChange changes d.userId docState1.version⟩], false⟩
    | _, _ => ⟨r1, [], true⟩

/-- Handler of `cursor-position`. -/
def onCursorPosition (r : Relay) (socket : SocketId) (data : Option CursorData) : Outcome :=
  match data with
  | none => ⟨r, [], true⟩
  | some d => ⟨r, [⟨.roomExcept d.documentId socket, .cursorPosition d.position d.userId⟩], false⟩

/-- Handler of `typing`. -/
def onTyping (r : Relay) (socket : SocketId) (data : Option TypingData) : Outcome :=
  match data with
  | none => ⟨r, [], true⟩
  | some d => ⟨r, [⟨.roomExcept d.documentId socket, .userTyping d.isTyping d.userId⟩], false⟩

/-- Handler of `disconnect`, run after socket.io has taken the socket out of its rooms. -/
def onDisconnect (r : Relay) (socket : SocketId) : Outcome :=
  let r1 := socketLeaveAll r socket
  ⟨{ r1 with connectedUsers := mapDelete r1.connectedUsers socket }, [], false⟩

/-- The server handles one event to completion. -/
def step (r : Relay) : Event → Outcome
  | .connection s => onConnection r s
  | .joinDocument s d => onJoinDocument r s d
  | .textChange s data => onTextChange r s data
  | .cursorPosition s data => onCursorPosition r s data
  | .typing s data => onTyping r s data
  | .disconnect s => onDisconnect r s

/-- The state after a sequence of events, handled in the order received. -/
def run (r : Relay) : List Event → Relay
  | [] => r
  | e :: es => run (step r e).relay es

/-- Every emit made while handling a sequence of events, in order. -/
def emitLog (r : Relay) : List Event → List Emission
  | [] => []
  | e :: es => (step r e).emits ++ emitLog (step r e).relay es

/-- The deliveries `(receiver, message)` of one event, taken in the state the
handler leaves. -/
def deliveries (r : Relay) (e : Event) : List (SocketId × Message) :=
  (step r e).emits.flatMap (fun em => (receivers (step r e).relay em.target).map (fun s => (s, em.message)))

/-! ### Reading a history of events -/

/-- Whether socket `s` is subscribed to `d` after the events `es`, given whether
it was before: it has sent `join-document` for `d` and has not disconnected since. -/
def joinedFrom (s : SocketId) (d : DocumentId) (before : Bool) : List Event → Bool
  | [] => before
  | .joinDocument s' d' :: es => joinedFrom s d (before || decide (s' = s ∧ d' = d)) es
  | .disconnect s' :: es => joinedFrom s d (before && !decide (s' = s)) es
  | _ :: es => joinedFrom s d before es

/-- Whether socket `s` is subscribed to `d` after the events `es`, starting
from no subscription. -/
def joined (s : SocketId) (d : DocumentId) (es : List Event) : Bool :=
  joinedFrom s d false es

/-- Whether socket `s` is in the room named `d` after the events `es`, given
whether it was before: it has joined `d`, or `d` is its own id and it has
connected, and it has not disconnected since. -/
def inRoomFrom (s : SocketId) (d : DocumentId) (before : Bool) : List Event → Bool
  | [] => before
  | .connection s' :: es => inRoomFrom s d (before || decide (s' = s ∧ d = some s)) es
  | .joinDocument s' d' :: es => inRoomFrom s d (before || decide (s' = s ∧ d' = d)) es
  | .disconnect s' :: es => inRoomFrom s d (before && !decide (s' = s)) es
  | _ :: es => inRoomFrom s d before es

/-- Whether socket `s` is in the room named `d` after the events `es`, starting
from empty rooms. -/
def inRoom (s : SocketId) (d : DocumentId) (es : List Event) : Bool :=
  inRoomFrom s d false es

/-- The `changes` of an event that is a `text-change` for document `d` carrying
a `changes` object; `none` for every other event. -/
def editOf (d : DocumentId) : Event → Option Changes
  | .textChange _ (some ⟨d', some ch, _⟩) => if d' = d then some ch else none
  | _ => none

/-- How many `text-change` events for `d` a history holds: those whose payload
names `d` and carries `changes`, the ones the handler runs to its end. -/
def editCount (d : DocumentId) : List Event → Nat
  | [] => 0
  | e :: es => (if (editOf d e).isSome then 1 else 0) + editCount d es

/-- The `changes` of the last `text-change` for `d` in a history, `before` if
there is none. -/
def lastEditFrom (d : DocumentId) (before : Option Changes) : List Event → Option Changes
  | [] => before
  | e :: es => lastEditFrom d (match editOf d e with | some ch => some ch | none => before) es

/-- The `changes` of the last `text-change` for `d` in a history. -/
def lastEdit (d : DocumentId) (es : List Event) : Option Changes :=
  lastEditFrom d none es

/-- The version counter of `d`, `0` when `d` has no room state. -/
def versionOf (r : Relay) (d : DocumentId) : Nat :=
  match mapGet r.documentStates d with
  | some st => st.version
  | none => 0

/-- The content held for `d`, the initial `""` when `d` has no room state. -/
def contentOf (r : Relay) (d : DocumentId) : Option String :=
  match mapGet r.documentStates d with
  | some st => st.content
  | none => some ""

/-- The map `text-change` works on once the entry of `d` is ensured. -/
def ensured (r : Relay) (d : DocumentId) : List (DocumentId × DocState) :=
  if mapHas r.documentStates d then r.documentStates
  else mapSet r.documentStates d { content := some "", version := 0 }

/-! ## The durable documents: `models/Document.js` and `routes/documents.js` -/

/-- A user id, as in `req.user.userId`. -/
abbrev UserId := String

/-- A document id, as in `req.params.id` (a well-formed ObjectId). -/
abbrev ObjectId := String

/-- The `enum: ['read', 'write']` of `collaborators.permissions`. -/
inductive Permission where
  | read
  | write
deriving DecidableEq, Repr

/-- An entry of `collaborators`. -/
structure Collaborator where
  user : UserId
  permissions : Permission
deriving DecidableEq, Repr

/-- A document of `documentSchema`; dates are milliseconds. -/
structure Document where
  id : ObjectId
  title : String
  content : String
  owner : UserId
  collaborators : List Collaborator
  isPublic : Bool
  version : Nat
  lastModified : Nat
  createdAt : Nat
deriving DecidableEq, Repr

/-- The documents collection, in insertion order. -/
abbrev Store := List Document

/-- ECMAScript `WhiteSpace` and `LineTerminator`, the characters `trim` strips. -/
def isJsWhiteSpace (c : Char) : Bool :=
  let n := c.toNat
  n = 0x09 || n = 0x0A || n = 0x0B || n = 0x0C || n = 0x0D || n = 0x20 || n = 0xA0 ||
  n = 0x1680 || (0x2000 ≤ n && n ≤ 0x200A) || n = 0x2028 || n = 0x2029 || n = 0x202F ||
  n = 0x205F || n = 0x3000 || n = 0xFEFF

/-- `String.prototype.trim`. -/
def jsTrim (s : String) : String :=
  ⟨((s.data.dropWhile isJsWhiteSpace).reverse.dropWhile isJsWhiteSpace).reverse⟩

/-- `String.prototype.length`: UTF-16 code units. -/
def jsLength (s : String) : Nat :=
  (s.data.map (fun c => if c.toNat < 0x10000 then 1 else 2)).sum

/-- `Document.findById`. -/
def findById (store : Store) (id : ObjectId) : Option Document :=
  store.find? (fun d => decide (d.id = id))

/-- The validators of `documentSchema` that a typed document can fail: `title`
is `required` (not empty) and has `maxlength: 100`. -/
def validate (d : Document) : Bool :=
  decide (d.title ≠ "") && decide (jsLength d.title ≤ 100)

/-- Writing a document back under its `_id`; a document not yet stored is inserted. -/
def storeWrite (store : Store) (d : Document) : Store :=
  if store.any (fun x => decide (x.id = d.id)) then
    store.map (fun x => if x.id = d.id then d else x)
  else store ++ [d]

/-- `document.save()` at time `now`: validation, then the `pre('save')` hook
setting `lastModified`, then the write. `none` is the rejected promise of a
failed validation, with nothing written. -/
def documentSave (now : Nat) (store : Store) (d : Document) : Option (Store × Document) :=
  if validate d then
    let d1 := { d with lastModified := now }
    some (storeWrite store d1, d1)
  else none

/-- The body of `PUT /documents/:id`: `{ title?, content?, isPublic? }`. -/
structure UpdateBody where
  title : Option String
  content : Option String
  isPublic : Option Bool
deriving DecidableEq, Repr

/-- A response: `res.status(status).json({ message, document })`. -/
structure Response where
  status : Nat
  message : String
  document : Option Document
deriving DecidableEq, Repr

/-- The check of `router.put('/:id')`: owner, or a collaborator entry of the
user with permission `write`. -/
def canWrite (document : Document) (userId : UserId) : Bool :=
  let isOwner := decide (document.owner = userId)
  let hasWritePermission := document.collaborators.any
    (fun collab => decide (collab.user = userId) && decide (collab.permissions = Permission.write))
  isOwner || hasWritePermission

/-- The field updates of `router.put('/:id')`; assigning `title` runs the
schema setter `trim`. -/
def applyBody (document : Document) (body : UpdateBody) : Document :=
  let d1 := match body.title with
    | some title => { document with title := jsTrim title }
    | none => document
  let d2 := match body.content with
    | some content => { d1 with content := content }
    | none => d1
  let d3 := match body.isPublic with
    | some isPublic => { d2 with isPublic := isPublic }
    | none => d2
  { d3 with version := d3.version + 1 }

/-- Handler `router.put('/:id')` for the authenticated user `userId` at time
`now`: the store it leaves and its response. A rejected `save` lands in the
`catch` block, which answers 500. -/
def putDocument (now : Nat) (store : Store) (id : ObjectId) (userId : UserId)
    (body : UpdateBody) : Store × Response :=
  match findById store id with
  | none => (store, ⟨404, "Document not found", none⟩)
  | some document =>
    if !canWrite document userId then (store, ⟨403, "No write permission", none⟩)
    else
      match documentSave now store (applyBody document body) with
      | some (store1, saved) => (store1, ⟨200, "Document updated successfully", some saved⟩)
      | none => (store, ⟨500, "Server error", none⟩)

/-! ## The save path of `client/src/components/DocumentEditor.js` -/

/-- The component state and refs the save path uses: the `content` and `saving`
states and the ref `lastSavedContent`. -/
structure Editor where
  content : Option String
  saving : Bool
  lastSavedContent : Option String
deriving DecidableEq, Repr

/-- The component as mounted: `useState('')`, `useState(false)`, `useRef('')`. -/
def Editor.mount : Editor := ⟨some "", false, some ""⟩

/-- A toast shown to the user. -/
inductive Toast where
  | success (text : String)
  | error (text : String)
deriving DecidableEq, Repr

/-- The `try` branch of `fetchDocument`, on a response carrying `document`. -/
def fetchDocument (document : Document) (ed : Editor) : Editor :=
  { ed with content := some document.content, lastSavedContent := some document.content }

/-- The `document-state` listener; `seen` is the `content` of the render in
which `initializeSocket` ran, which the listener closes over. -/
def onDocumentState (seen : Option String) (state : DocState) (ed : Editor) : Editor :=
  if state.content ≠ seen then
    { ed with content := state.content, lastSavedContent := state.content }
  else ed

/-- The `setContent(value)` of `handleContentChange` for a change made by the user. -/
def handleContentChange (value : String) (ed : Editor) : Editor :=
  { ed with content := some value }

/-- How `saveDocument` goes up to its `await`: it returns early, throws
(`trim` of a value that is no string), or sends a request. -/
inductive SaveStart where
  | unchanged
  | busy
  | threw
  | request (body : UpdateBody)
deriving DecidableEq, Repr

/-- `saveDocument` up to its `await`; `content` and `saving` are the states of
the render the called closure belongs to. -/
def saveDocumentStart (content : Option String) (saving : Bool) (ed : Editor) :
    Editor × SaveStart :=
  match content, ed.lastSavedContent with
  | some c, some l =>
    if jsTrim c = jsTrim l then (ed, .unchanged)
    else if saving then (ed, .busy)
    else ({ ed with saving := true }, .request ⟨none, some c, none⟩)
  | _, _ => (ed, .threw)

/-- The error toast of the `catch` block, by the status of `error.response`
(`none`: no response, a network error). -/
def saveErrorToast (status : Option Nat) : List Toast :=
  match status with
  | some st =>
    if st ≥ 500 then [.error "Failed to save document"]
    else if st = 401 then [.error "Session expired. Please login again."]
    else if st = 403 then [.error "No permission to edit this document"]
    else if st = 404 then [.error "Document not found"]
    else []
  | none => []

/-- `saveDocument` from its `await` on: `reply` is the response, `none` when
none arrived; axios rejects every status outside 2xx. -/
def saveDocumentFinish (content : Option String) (isAutoSave : Bool) (reply : Option Response)
    (ed : Editor) : Editor × List Toast :=
  match reply with
  | some resp =>
    if 200 ≤ resp.status ∧ resp.status < 300 then
      ({ ed with lastSavedContent := content, saving := false },
        if isAutoSave then [] else [.success "Document saved"])
    else ({ ed with saving := false }, saveErrorToast (some resp.status))
  | none => ({ ed with saving := false }, saveErrorToast none)

/-- One call of `saveDocument` run to its end against the server: the user
`userId` saves document `id` at time `now`; `online` tells whether the request
reaches the server. -/
def saveDocument (now : Nat) (id : ObjectId) (userId : UserId) (online isAutoSave : Bool)
    (content : Option String) (saving : Bool) (store : Store) (ed : Editor) :
    Store × Editor × List Toast :=
  match saveDocumentStart content saving ed with
  | (ed1, .request body) =>
    if online then
      let (store1, resp) := putDocument now store id userId body
      let (ed2, toasts) := saveDocumentFinish content isAutoSave (some resp) ed1
      (store1, ed2, toasts)
    else
      let (ed2, toasts) := saveDocumentFinish content isAutoSave none ed1
      (store, ed2, toasts)
  | (ed1, _) => (store, ed1, [])

/-- The Save button: `saveDocument` of the current render, not an auto-save. -/
def clickSave (now : Nat) (id : ObjectId) (userId : UserId) (online : Bool)
    (store : Store) (ed : Editor) : Store × Editor × List Toast :=
  saveDocument now id userId online false ed.content ed.saving store ed

/-! ## Adding a collaborator: `router.post('/:id/collaborators')` -/

/-- The body of `POST /documents/:id/collaborators`: `{ userId, permissions }`,
as received. -/
structure CollaboratorBody where
  userId : Option String
  permissions : Option String
deriving DecidableEq, Repr

/-- The validator `isIn(['read', 'write'])`, with the value it lets through. -/
def parsePermission : Option String → Option Permission
  | some "read" => some .read
  | some "write" => some .write
  | _ => none

/-- The id a request string is cast to when it is stored as an ObjectId, as
`toString()` gives it back: the hexadecimal digits in lower case. Two strings
of 24 hexadecimal digits that differ in case only name the same user. (The
short ids of the samples stand for such strings, written in lower case.) -/
def castObjectId (s : String) : UserId :=
  ⟨s.data.map Char.toLower⟩

/-- The branch on `existingCollaborator`: the first entry whose stored id
equals the request string `userId` gets the new permission, and without such
an entry one is pushed, its user cast to an ObjectId. -/
def upsertCollaborator : List Collaborator → String → Permission → List Collaborator
  | [], userId, permissions => [⟨castObjectId userId, permissions⟩]
  | collab :: rest, userId, permissions =>
    if collab.user = userId then { collab with permissions := permissions } :: rest
    else collab :: upsertCollaborator rest userId permissions

/-- Handler `router.post('/:id/collaborators')` for the authenticated user
`reqUser` at time `now`. The id of the requester comes from the token, in the
form `toString()` gives; the `userId` of the body is compared as the string
it is, and cast when stored. -/
def addCollaborator (now : Nat) (store : Store) (id : ObjectId) (reqUser : UserId)
    (body : CollaboratorBody) : Store × Response :=
  match body.userId, parsePermission body.permissions with
  | some userId, some permissions =>
    if userId = "" then (store, ⟨400, "Validation failed", none⟩)
    else
      match findById store id with
      | none => (store, ⟨404, "Document not found", none⟩)
      | some document =>
        if document.owner ≠ reqUser then
          (store, ⟨403, "Only owner can add collaborators", none⟩)
        else if userId = reqUser then
          (store, ⟨400, "Cannot add yourself as a collaborator", none⟩)
        else
          match documentSave now store
            { document with
              collaborators := upsertCollaborator document.collaborators userId permissions } with
          | some (store1, saved) => (store1, ⟨200, "Collaborator added successfully", some saved⟩)
          | none => (store, ⟨500, "Server error", none⟩)
  | _, _ => (store, ⟨400, "Validation failed", none⟩)

/-! ## Creating, fetching and deleting: the other routes of `routes/documents.js` -/

/-- The body of `POST /documents`: `{ title, content, isPublic }`, each of them
possibly missing. -/
structure CreateBody where
  title : Option String
  content : Option String
  isPublic : Option Bool
deriving DecidableEq, Repr

/-- The `document.save()` of a document made with `new Document`: validation,
the `pre('save')` hook, then the insert, which the collection refuses for an
`_id` it already holds. -/
def documentInsert (now : Nat) (store : Store) (d : Document) : Option (Store × Document) :=
  if validate d then
    if store.any (fun x => decide (x.id = d.id)) then none
    else some (store ++ [{ d with lastModified := now }], { d with lastModified := now })
  else none

/-- The length `isLength` measures: a surrogate pair counts once, and the
variation selectors U+FE0E and U+FE0F do not count. -/
def validatorLength (s : String) : Nat :=
  (s.data.filter (fun c => !(decide (c.toNat = 0xFE0E) || decide (c.toNat = 0xFE0F)))).length

/-- Handler `router.post('/')` for the authenticated user `userId` at time
`now`; `newId` is the `_id` generated for the new document. The validators
want `title` to be `notEmpty` and `isLength({ max: 100 })`. The body is
destructured with the defaults `content = ''` and `isPublic = true`; the
schema gives `collaborators: []` and `version: 0`. -/
def postDocument (now : Nat) (newId : ObjectId) (store : Store) (userId : UserId)
    (body : CreateBody) : Store × Response :=
  match body.title with
  | none => (store, ⟨400, "Validation failed", none⟩)
  | some title =>
    if title = "" ∨ 100 < validatorLength title then (store, ⟨400, "Validation failed", none⟩)
    else
      match documentInsert now store
        ⟨newId, jsTrim title, body.content.getD "", userId, [], body.isPublic.getD true, 0,
          now, now⟩ with
      | some (store1, saved) => (store1, ⟨201, "Document created successfully", some saved⟩)
      | none => (store, ⟨500, "Server error", none⟩)

/-- The check of `router.get('/:id')`: owner, or any collaborator entry of the
user, or a public document. -/
def hasAccess (document : Document) (userId : UserId) : Bool :=
  decide (document.owner = userId) ||
    document.collaborators.any (fun collab => decide (collab.user = userId)) ||
    document.isPublic

/-- What `populate` puts in place of a stored user id: the user of that id,
and `null`, here `none`, when the users collection `users` holds none. -/
def populateUser (users : List UserId) (id : UserId) : Option UserId :=
  if id ∈ users then some id else none

/-- The evaluation of `document.collaborators.some(collab =>
collab.user._id.toString() === userId)` on the populated list, entry by
entry: `none` when it reaches an entry whose user is `null` and throws. -/
def someCollaborator (users : List UserId) (userId : UserId) :
    List Collaborator → Option Bool
  | [] => some false
  | collab :: rest =>
    match populateUser users collab.user with
    | none => none
    | some id => if id = userId then some true else someCollaborator users userId rest

/-- Handler `router.get('/:id')` for the authenticated user `userId`, with
`users` the ids of the users that exist. The access check reads the populated
owner, then the populated collaborators, then `isPublic`, stopping at the
first that grants access; reading `_id` of a `null` user throws, and the
`catch` block answers 500. The answer `{ document }` has no message. -/
def getDocument (users : List UserId) (store : Store) (id : ObjectId) (userId : UserId) :
    Response :=
  match findById store id with
  | none => ⟨404, "Document not found", none⟩
  | some document =>
    match populateUser users document.owner with
    | none => ⟨500, "Server error", none⟩
    | some owner =>
      if owner = userId then ⟨200, "", some document⟩
      else
        match someCollaborator users userId document.collaborators with
        | none => ⟨500, "Server error", none⟩
        | some true => ⟨200, "", some document⟩
        | some false =>
          if document.isPublic then ⟨200, "", some document⟩
          else ⟨403, "Access denied", none⟩

/-- Handler `router.delete('/:id')` for the authenticated user `userId`;
`findByIdAndDelete` removes the document of that `_id`, which is unique in
the collection. -/
def deleteDocument (store : Store) (id : ObjectId) (userId : UserId) : Store × Response :=
  match findById store id with
  | none => (store, ⟨404, "Document not found", none⟩)
  | some document =>
    if document.owner ≠ userId then (store, ⟨403, "Only owner can delete document", none⟩)
    else (store.filter (fun d => !decide (d.id = id)), ⟨200, "Document deleted successfully", none⟩)

/-! ## The server as a whole: socket handlers and routes side by side -/

/-- The two states of the server process: the relay state of `server.js` and
the documents collection the routes work on. -/
structure Server where
  relay : Relay
  store : Store
deriving DecidableEq, Repr

/-- What reaches the server: a socket event, or a request to one of the routes;
a fetch comes with the ids of the users that exist when it is handled. -/
inductive Request where
  | socket (e : Event)
  | put (now : Nat) (id : ObjectId) (userId : UserId) (body : UpdateBody)
  | postCollaborator (now : Nat) (id : ObjectId) (userId : UserId) (body : CollaboratorBody)
  | post (now : Nat) (newId : ObjectId) (userId : UserId) (body : CreateBody)
  | get (users : List UserId) (id : ObjectId) (userId : UserId)
  | delete (id : ObjectId) (userId : UserId)
deriving DecidableEq, Repr

/-- What the server sends back: socket deliveries, or the response of a route. -/
structure Reply where
  deliveries : List (SocketId × Message)
  response : Option Response
deriving DecidableEq, Repr

/-- The server handles one event or request: the socket handlers see the relay
state only, the routes the documents only. -/
def Server.handle (s : Server) : Request → Server × Reply
  | .socket e => ({ s with relay := (step s.relay e).relay }, ⟨deliveries s.relay e, none⟩)
  | .put now id userId body =>
    ({ s with store := (putDocument now s.store id userId body).1 },
      ⟨[], some (putDocument now s.store id userId body).2⟩)
  | .postCollaborator now id userId body =>
    ({ s with store := (addCollaborator now s.store id userId body).1 },
      ⟨[], some (addCollaborator now s.store id userId body).2⟩)
  | .post now newId userId body =>
    ({ s with store := (postDocument now newId s.store userId body).1 },
      ⟨[], some (postDocument now newId s.store userId body).2⟩)
  | .get users id userId => (s, ⟨[], some (getDocument users s.store id userId)⟩)
  | .delete id userId =>
    ({ s with store := (deleteDocument s.store id userId).1 },
      ⟨[], some (deleteDocument s.store id userId).2⟩)

/-- The server handles a sequence of events and requests, in the order received. -/
def Server.run (s : Server) : List Request → Server
  | [] => s
  | q :: rest => Server.run (s.handle q).1 rest

/-- Every socket delivery made while handling a sequence, in order. -/
def Server.log (s : Server) : List Request → List (SocketId × Message)
  | [] => []
  | q :: rest => (s.handle q).2.deliveries ++ Server.log (s.handle q).1 rest

/-- The socket events of a sequence. -/
def socketEvents : List Request → List Event
  | [] => []
  | .socket e :: rest => e :: socketEvents rest
  | _ :: rest => socketEvents rest

/-- The requests to the routes in a sequence. -/
def routeRequests : List Request → List Request
  | [] => []
  | .socket _ :: rest => routeRequests rest
  | q :: rest => q :: routeRequests rest

/-- Every delivery the relay makes while handling a sequence of events, in order. -/
def deliveryLog (r : Relay) : List Event → List (SocketId × Message)
  | [] => []
  | e :: es => deliveries r e ++ deliveryLog (step r e).relay es

/-! ## The shape of the presence payloads -/

/-- The fields `typing` is sent with: `{ documentId, isTyping, userId }`. -/
def TypingData.fieldNames (_ : TypingData) : List String :=
  ["documentId", "isTyping", "userId"]

/-- The fields `cursor-position` is sent with: `{ documentId, position, userId }`. -/
def CursorData.fieldNames (_ : CursorData) : List String :=
  ["documentId", "position", "userId"]

/-- The fields of the object literal each message is emitted with. -/
def Message.fieldNames : Message → List String
  | .documentState _ => ["content", "version"]
  | .textChange _ _ _ => ["changes", "userId", "version"]
  | .cursorPosition _ _ => ["position", "userId"]
  | .userTyping _ _ => ["isTyping", "userId"]

/-- The event name each message is emitted under. -/
def Message.eventName : Message → String
  | .documentState _ => "document-state"
  | .textChange _ _ _ => "text-change"
  | .cursorPosition _ _ => "cursor-position"
  | .userTyping _ _ => "user-typing"

/-! ## The auto-save timer of `handleContentChange` -/

/-- A pending `setTimeout` of `handleContentChange`: when it is due, and the
`content` and `saving` its callback sees. The callback calls the `saveDocument`
of the render in which `handleContentChange` ran, so these are the states as
they were before `setContent(value)` took effect. -/
structure SaveTimeout where
  due : Nat
  content : Option String
  saving : Bool
deriving DecidableEq, Repr

/-- An editing session of one user on one document: the editor, the timer in
`saveTimeoutRef`, the documents collection, and the bodies of the save requests
sent so far. -/
structure Session where
  editor : Editor
  saveTimeout : Option SaveTimeout
  store : Store
  requests : List UpdateBody
deriving DecidableEq, Repr

/-- The request a call of `saveDocument` sends, if any. -/
def requestOf (content : Option String) (saving : Bool) (ed : Editor) : List UpdateBody :=
  match (saveDocumentStart content saving ed).2 with
  | .request body => [body]
  | _ => []

/-- The timer callback runs: `window.isAutoSave = true; saveDocument()`. -/
def fireTimeout (id : ObjectId) (userId : UserId) (online : Bool) (t : SaveTimeout)
    (s : Session) : Session :=
  let r := saveDocument t.due id userId online true t.content t.saving s.store s.editor
  { editor := r.2.1, saveTimeout := none, store := r.1,
    requests := s.requests ++ requestOf t.content t.saving s.editor }

/-- Time passes up to `now`: a timer that is due runs. -/
def advance (id : ObjectId) (userId : UserId) (online : Bool) (now : Nat) (s : Session) :
    Session :=
  match s.saveTimeout with
  | some t => if t.due ≤ now then fireTimeout id userId online t s else s
  | none => s

/-- The user changes the text to `value` at time `now`: `handleContentChange`
with `source === 'user'` sets the content, clears the pending timer and sets a
new one, 2000 ms ahead. (The `text-change` it sends to the server on the way is
an `Event.textChange` of the relay.) -/
def changeAt (id : ObjectId) (userId : UserId) (online : Bool) (now : Nat) (value : String)
    (s : Session) : Session :=
  let s1 := advance id userId online now s
  { s1 with
    editor := handleContentChange value s1.editor,
    saveTimeout := some ⟨now + 2000, s1.editor.content, s1.editor.saving⟩ }

/-- A run of changes `(time, value)`, in the order made. -/
def runChanges (id : ObjectId) (userId : UserId) (online : Bool) (s : Session) :
    List (Nat × String) → Session
  | [] => s
  | (now, value) :: rest =>
    runChanges id userId online (changeAt id userId online now value s) rest

/-- Consecutive changes are less than 2000 ms apart, in time order. -/
def isBurst : List (Nat × String) → Bool
  | [] => true
  | [_] => true
  | (t1, _) :: (t2, v2) :: rest =>
    decide (t1 ≤ t2) && decide (t2 < t1 + 2000) && isBurst ((t2, v2) :: rest)

/-- The session of a user who has opened `document` and done nothing yet. -/
def Session.opened (document : Document) (store : Store) : Session :=
  ⟨fetchDocument document Editor.mount, none, store, []⟩

/-! ## Sample data -/

/-- A private document of `alice`, titled `Notes`, with content `hello`,
written at time 10, with the given collaborators and version. -/
def notes (collaborators : List Collaborator) (version : Nat) : Document :=
  ⟨"d1", "Notes", "hello", "alice", collaborators, false, version, 10, 10⟩

/-! ## Lemmas on the maps -/

theorem mapHas_eq_isSome {κ ν : Type} [DecidableEq κ] (m : List (κ × ν)) (k : κ) :
    mapHas m k = (mapGet m k).isSome := by
  induction m with
  | nil => rfl
  | cons p rest ih =>
    obtain ⟨k', v⟩ := p
    by_cases h : k' = k
    · simp [mapHas, mapGet, h]
    · have ih' : rest.any (fun p => decide (p.1 = k)) = (mapGet rest k).isSome := ih
      simp [mapHas, mapGet, h, ih']

theorem mapGet_mapSet {κ ν : Type} [DecidableEq κ] (m : List (κ × ν)) (k k' : κ) (v : ν) :
    mapGet (mapSet m k v) k' = if k = k' then some v else mapGet m k' := by
  induction m with
  | nil => simp [mapSet, mapGet]
  | cons p rest ih =>
    obtain ⟨k0, v0⟩ := p
    by_cases h0 : k0 = k
    · subst h0
      by_cases h1 : k0 = k' <;> simp [mapSet, mapGet, h1]
    · by_cases h1 : k0 = k'
      · subst h1
        have : ¬ k = k0 := fun h => h0 h.symm
        simp [mapSet, mapGet, h0, this]
      · simp [mapSet, mapGet, h0, h1, ih]

/-! ## Lemmas on the relay -/

theorem mapGet_ensured_self (r : Relay) (d : DocumentId) :
    mapGet (ensured r d) d = some { content := contentOf r d, version := versionOf r d } := by
  unfold ensured versionOf contentOf
  rw [mapHas_eq_isSome]
  cases h : mapGet r.documentStates d with
  | none => simp [mapGet_mapSet]
  | some st => simp [h]

theorem mapGet_ensured_other (r : Relay) (d d' : DocumentId) (h : d ≠ d') :
    mapGet (ensured r d) d' = mapGet r.documentStates d' := by
  unfold ensured
  by_cases hh : mapHas r.documentStates d = true
  · simp [hh]
  · simp [hh, mapGet_mapSet, h]

theorem onTextChange_edit (r : Relay) (s : SocketId) (d : DocumentId) (ch : Changes)
    (u : Option String) :
    onTextChange r s (some ⟨d, some ch, u⟩) =
      ⟨{ r with documentStates :=
            mapSet (ensured r d) d { content := ch.content, version := versionOf r d + 1 } },
        [⟨.roomExcept d s, .textChange ch u (versionOf r d + 1)⟩], false⟩ := by
  have h := mapGet_ensured_self r d
  unfold ensured at h
  simp only [onTextChange, ensured]
  rw [h]

theorem onTextChange_noChanges (r : Relay) (s : SocketId) (d : DocumentId) (u : Option String) :
    onTextChange r s (some ⟨d, none, u⟩) =
      ⟨{ r with documentStates := ensured r d }, [], true⟩ := by
  have h := mapGet_ensured_self r d
  unfold ensured at h
  simp only [onTextChange, ensured]
  rw [h]

/-- A `text-change` for `d` carrying `changes` stores its content under the
next version. -/
theorem step_edit_get (r : Relay) (d : DocumentId) (e : Event) (ch : Changes)
    (h : editOf d e = some ch) :
    mapGet (step r e).relay.documentStates d
      = some { content := ch.content, version := versionOf r d + 1 } := by
  cases e with
  | textChange s data =>
    cases data with
    | none => simp [editOf] at h
    | some dat =>
      obtain ⟨d', chs, u⟩ := dat
      cases chs with
      | none => simp [editOf] at h
      | some ch' =>
        by_cases hd : d' = d
        · subst hd
          simp only [editOf, if_true, Option.some.injEq] at h
          subst h
          simp [step, onTextChange_edit, mapGet_mapSet]
        · simp [editOf, hd] at h
  | connection s => simp [editOf] at h
  | joinDocument s d' => simp [editOf] at h
  | cursorPosition s data => simp [editOf] at h
  | typing s data => simp [editOf] at h
  | disconnect s => simp [editOf] at h

theorem socketJoin_states (r : Relay) (s : SocketId) (d : DocumentId) :
    (socketJoin r s d).documentStates = r.documentStates := by
  unfold socketJoin
  split <;> rfl

/-- `join-document` leaves `documentStates` as it is. -/
theorem onJoinDocument_states (r : Relay) (s : SocketId) (d : DocumentId) :
    (onJoinDocument r s d).relay.documentStates = r.documentStates := by
  have hj : (socketJoin r s d).documentStates = r.documentStates := by
    unfold socketJoin
    split <;> rfl
  unfold onJoinDocument
  simp only [hj]
  split
  · split <;> exact hj
  · exact hj

/-- An event that is no `text-change` for `d` keeps an existing entry of `d`. -/
theorem step_other_get (r : Relay) (d : DocumentId) (e : Event) (st : DocState)
    (h : editOf d e = none) (hst : mapGet r.documentStates d = some st) :
    mapGet (step r e).relay.documentStates d = some st := by
  cases e with
  | textChange s data =>
    cases data with
    | none => simpa [step, onTextChange] using hst
    | some dat =>
      obtain ⟨d', chs, u⟩ := dat
      by_cases hd : d' = d
      · subst hd
        cases chs with
        | none =>
          have hh : mapHas r.documentStates d' = true := by simp [mapHas_eq_isSome, hst]
          simp [step, onTextChange_noChanges, ensured, hh, hst]
        | some ch' => simp [editOf] at h
      · cases chs with
        | none =>
          simp only [step, onTextChange_noChanges]
          rw [mapGet_ensured_other r d' d hd]
          exact hst
        | some ch' =>
          simp only [step, onTextChange_edit, mapGet_mapSet, if_neg hd]
          rw [mapGet_ensured_other r d' d hd]
          exact hst
  | connection s => simpa [step, onConnection, socketJoin_states] using hst
  | joinDocument s d' => simpa [step, onJoinDocument_states] using hst
  | cursorPosition s data => cases data <;> simpa [step, onCursorPosition] using hst
  | typing s data => cases data <;> simpa [step, onTyping] using hst
  | disconnect s => simpa [step, onDisconnect, socketLeaveAll] using hst

/-- An event that is no `text-change` for `d` keeps the version counter of `d`. -/
theorem step_other_version (r : Relay) (d : DocumentId) (e : Event)
    (h : editOf d e = none) : versionOf (step r e).relay d = versionOf r d := by
  cases hst : mapGet r.documentStates d with
  | some st =>
    have h2 := step_other_get r d e st h hst
    simp [versionOf, h2, hst]
  | none =>
    cases e with
    | textChange s data =>
      cases data with
      | none => simp [step, onTextChange]
      | some dat =>
        obtain ⟨d', chs, u⟩ := dat
        by_cases hd : d' = d
        · subst hd
          cases chs with
          | none =>
            have h3 := mapGet_ensured_self r d'
            simp only [step, onTextChange_noChanges, versionOf] at h3 ⊢
            rw [h3, hst]
          | some ch' => simp [editOf] at h
        · cases chs with
          | none =>
            simp only [step, onTextChange_noChanges, versionOf]
            rw [mapGet_ensured_other r d' d hd]
          | some ch' =>
            simp only [step, onTextChange_edit, versionOf, mapGet_mapSet, if_neg hd]
            rw [mapGet_ensured_other r d' d hd]
    | connection s => simp [step, versionOf, onConnection, socketJoin_states]
    | joinDocument s d' => simp [step, versionOf, onJoinDocument_states]
    | cursorPosition s data => cases data <;> simp [step, onCursorPosition]
    | typing s data => cases data <;> simp [step, onTyping]
    | disconnect s => simp [step, onDisconnect, socketLeaveAll, versionOf]

/-- Along any history the version counter of `d` grows by the number of its
`text-change` events. -/
theorem run_version (d : DocumentId) (es : List Event) (r : Relay) :
    versionOf (run r es) d = versionOf r d + editCount d es := by
  induction es generalizing r with
  | nil => simp [run, editCount]
  | cons e es ih =>
    rw [run, ih, editCount]
    cases h : editOf d e with
    | none => simp [step_other_version r d e h]
    | some ch =>
      have := step_edit_get r d e ch h
      simp [versionOf, this]
      omega

/-- The entry of `d` holds the content of the last `text-change` for `d`. -/
theorem run_lastEdit (d : DocumentId) (es : List Event) (r : Relay) (before : Option Changes)
    (hb : ∀ ch, before = some ch → contentOf r d = ch.content ∧ (mapGet r.documentStates d).isSome)
    (ch : Changes) (h : lastEditFrom d before es = some ch) :
    contentOf (run r es) d = ch.content ∧ (mapGet (run r es).documentStates d).isSome := by
  induction es generalizing r before with
  | nil => exact hb ch h
  | cons e es ih =>
    rw [lastEditFrom] at h
    rw [run]
    refine ih (step r e).relay _ ?_ h
    intro ch' hch'
    cases he : editOf d e with
    | some c0 =>
      rw [he] at hch'
      simp only [Option.some.injEq] at hch'
      subst hch'
      have := step_edit_get r d e c0 he
      simp [contentOf, this]
    | none =>
      rw [he] at hch'
      obtain ⟨h1, h2⟩ := hb ch' hch'
      obtain ⟨st, hst⟩ := Option.isSome_iff_exists.mp h2
      have := step_other_get r d e st he hst
      simp only [contentOf, this, hst] at h1 ⊢
      simp [h1]

/-! ### Room membership -/

theorem onJoinDocument_relay (r : Relay) (s : SocketId) (d : DocumentId) :
    (onJoinDocument r s d).relay = socketJoin r s d := by
  unfold onJoinDocument
  dsimp only
  split
  · split <;> rfl
  · rfl

theorem mem_socketJoin (r : Relay) (s s' : SocketId) (d d' : DocumentId) :
    (s, d) ∈ (socketJoin r s' d').rooms ↔ (s, d) ∈ r.rooms ∨ (s' = s ∧ d' = d) := by
  unfold socketJoin
  by_cases h : (s', d') ∈ r.rooms
  · simp only [h, if_true]
    constructor
    · exact Or.inl
    · rintro (h1 | ⟨h1, h2⟩)
      · exact h1
      · subst h1; subst h2; exact h
  · simp only [h, if_false, List.mem_append, List.mem_singleton, Prod.mk.injEq]
    constructor
    · rintro (h1 | ⟨h1, h2⟩)
      · exact Or.inl h1
      · exact Or.inr ⟨h1.symm, h2.symm⟩
    · rintro (h1 | ⟨h1, h2⟩)
      · exact Or.inl h1
      · exact Or.inr ⟨h1.symm, h2.symm⟩

/-- The pairs in `rooms` after a history are those the history puts there. -/
theorem mem_run_rooms (s : SocketId) (d : DocumentId) (es : List Event) (r : Relay) :
    (s, d) ∈ (run r es).rooms ↔ inRoomFrom s d (decide ((s, d) ∈ r.rooms)) es = true := by
  induction es generalizing r with
  | nil => simp [run, inRoomFrom]
  | cons e es ih =>
    rw [run, ih]
    cases e with
    | connection s' =>
      have : decide ((s, d) ∈ (step r (.connection s')).relay.rooms)
          = (decide ((s, d) ∈ r.rooms) || decide (s' = s ∧ d = some s)) := by
        rw [Bool.eq_iff_iff]
        simp only [step, onConnection, mem_socketJoin, decide_eq_true_eq, Bool.or_eq_true]
        constructor
        · rintro (h | ⟨h1, h2⟩)
          · exact Or.inl h
          · exact Or.inr ⟨h1, by rw [← h2, h1]⟩
        · rintro (h | ⟨h1, h2⟩)
          · exact Or.inl h
          · exact Or.inr ⟨h1, by rw [h2, h1]⟩
      rw [this, inRoomFrom]
    | joinDocument s' d' =>
      have : decide ((s, d) ∈ (step r (.joinDocument s' d')).relay.rooms)
          = (decide ((s, d) ∈ r.rooms) || decide (s' = s ∧ d' = d)) := by
        rw [Bool.eq_iff_iff]
        simp only [step, onJoinDocument_relay, mem_socketJoin, decide_eq_true_eq, Bool.or_eq_true]
      rw [this, inRoomFrom]
    | disconnect s' =>
      have : decide ((s, d) ∈ (step r (.disconnect s')).relay.rooms)
          = (decide ((s, d) ∈ r.rooms) && !decide (s' = s)) := by
        rw [Bool.eq_iff_iff]
        simp only [step, onDisconnect, socketLeaveAll, List.mem_filter, decide_eq_true_eq,
          Bool.and_eq_true, Bool.not_eq_true', decide_eq_false_iff_not]
        constructor
        · rintro ⟨h1, h2⟩; exact ⟨h1, fun h => h2 h.symm⟩
        · rintro ⟨h1, h2⟩; exact ⟨h1, fun h => h2 h.symm⟩
      rw [this, inRoomFrom]
    | textChange s' data =>
      have : (step r (.textChange s' data)).relay.rooms = r.rooms := by
        simp only [step, onTextChange]
        split
        · rfl
        · split <;> rfl
      rw [this]; simp only [inRoomFrom]
    | cursorPosition s' data =>
      have : (step r (.cursorPosition s' data)).relay.rooms = r.rooms := by
        cases data <;> rfl
      rw [this]; simp only [inRoomFrom]
    | typing s' data =>
      have : (step r (.typing s' data)).relay.rooms = r.rooms := by
        cases data <;> rfl
      rw [this]; simp only [inRoomFrom]

/-- A socket that has joined `d` is in the room of `d`. -/
theorem inRoomFrom_of_joinedFrom (s : SocketId) (d : DocumentId) (es : List Event)
    (b b' : Bool) (hb : b = true → b' = true) (h : joinedFrom s d b es = true) :
    inRoomFrom s d b' es = true := by
  induction es generalizing b b' with
  | nil =>
    simp only [joinedFrom] at h
    simp only [inRoomFrom]
    exact hb h
  | cons e es ih =>
    cases e with
    | connection s' =>
      simp only [joinedFrom] at h
      simp only [inRoomFrom]
      exact ih b _ (fun hh => by simp [hb hh]) h
    | joinDocument s' d' =>
      simp only [joinedFrom] at h
      simp only [inRoomFrom]
      refine ih _ _ ?_ h
      intro hh
      rcases Bool.or_eq_true_iff.mp hh with h1 | h1
      · simp [hb h1]
      · simp only [Bool.or_eq_true]
        exact Or.inr h1
    | disconnect s' =>
      simp only [joinedFrom] at h
      simp only [inRoomFrom]
      refine ih _ _ ?_ h
      intro hh
      obtain ⟨h1, h2⟩ := Bool.and_eq_true_iff.mp hh
      simp only [Bool.and_eq_true]
      exact ⟨hb h1, h2⟩
    | textChange s' data =>
      simp only [joinedFrom] at h
      simp only [inRoomFrom]
      exact ih b b' hb h
    | cursorPosition s' data =>
      simp only [joinedFrom] at h
      simp only [inRoomFrom]
      exact ih b b' hb h
    | typing s' data =>
      simp only [joinedFrom] at h
      simp only [inRoomFrom]
      exact ih b b' hb h

/-- The room of the missing key is no socket's own room: a socket is in it
exactly when it has joined it. -/
theorem inRoomFrom_none (s : SocketId) (es : List Event) (b : Bool) :
    inRoomFrom s none b es = joinedFrom s none b es := by
  induction es generalizing b with
  | nil => rfl
  | cons e es ih =>
    cases e with
    | connection s' =>
      simp only [inRoomFrom, joinedFrom]
      rw [ih]
      simp
    | joinDocument s' d' => simp only [inRoomFrom, joinedFrom, ih]
    | disconnect s' => simp only [inRoomFrom, joinedFrom, ih]
    | textChange s' data => simp only [inRoomFrom, joinedFrom, ih]
    | cursorPosition s' data => simp only [inRoomFrom, joinedFrom, ih]
    | typing s' data => simp only [inRoomFrom, joinedFrom, ih]

theorem socketJoin_nodup (r : Relay) (s : SocketId) (d : DocumentId) (h : r.rooms.Nodup) :
    (socketJoin r s d).rooms.Nodup := by
  unfold socketJoin
  split
  · exact h
  · rename_i hm
    refine List.Nodup.append h (List.nodup_singleton _) ?_
    intro x hx hx'
    rw [List.mem_singleton] at hx'
    subst hx'
    exact hm hx

theorem step_rooms_nodup (r : Relay) (e : Event) (h : r.rooms.Nodup) :
    (step r e).relay.rooms.Nodup := by
  cases e with
  | connection s' => exact socketJoin_nodup r s' (some s') h
  | joinDocument s' d' =>
    simp only [step, onJoinDocument_relay, socketJoin]
    split
    · exact h
    · rename_i hm
      refine List.Nodup.append h (List.nodup_singleton _) ?_
      intro x hx hx'
      rw [List.mem_singleton] at hx'
      subst hx'
      exact hm hx
  | disconnect s' => exact List.Nodup.filter _ h
  | textChange s' data =>
    have : (step r (.textChange s' data)).relay.rooms = r.rooms := by
      simp only [step, onTextChange]
      split
      · rfl
      · split <;> rfl
    rw [this]; exact h
  | cursorPosition s' data => cases data <;> exact h
  | typing s' data => cases data <;> exact h

theorem run_rooms_nodup (es : List Event) (r : Relay) (h : r.rooms.Nodup) :
    (run r es).rooms.Nodup := by
  induction es generalizing r with
  | nil => exact h
  | cons e es ih => exact ih _ (step_rooms_nodup r e h)

theorem mem_members (r : Relay) (s : SocketId) (d : DocumentId) :
    s ∈ members r d ↔ (s, d) ∈ r.rooms := by
  simp only [members, List.mem_map, List.mem_filter, decide_eq_true_eq]
  constructor
  · rintro ⟨⟨a, b⟩, ⟨h1, h2⟩, h3⟩
    simp only at h2 h3
    subst h2; subst h3; exact h1
  · intro h
    exact ⟨(s, d), ⟨h, rfl⟩, rfl⟩

theorem members_nodup (r : Relay) (d : DocumentId) (h : r.rooms.Nodup) :
    (members r d).Nodup := by
  unfold members
  refine List.Nodup.map_on ?_ (List.Nodup.filter _ h)
  intro x hx y hy hxy
  simp only [List.mem_filter, decide_eq_true_eq] at hx hy
  exact Prod.ext hxy (hx.2.trans hy.2.symm)

/-- An event whose handler makes one emit to the room of `d` without the
sender `c`, in a state with the rooms of `run Relay.init es`, reaches exactly
the sockets in the room of `d` other than `c`, each once. -/
theorem fanout_of_emit (es : List Event) (c : SocketId) (d : DocumentId) (e : Event)
    (m : Message) (hem : (step (run Relay.init es) e).emits = [⟨.roomExcept d c, m⟩])
    (hrooms : (step (run Relay.init es) e).relay.rooms = (run Relay.init es).rooms) :
    ((deliveries (run Relay.init es) e).map Prod.fst).Nodup ∧
    ∀ s, s ∈ (deliveries (run Relay.init es) e).map Prod.fst ↔ (inRoom s d es = true ∧ s ≠ c) := by
  have hd : (deliveries (run Relay.init es) e).map Prod.fst
      = (members (run Relay.init es) d).filter (fun s => !decide (s = c)) := by
    have hm : members (step (run Relay.init es) e).relay d = members (run Relay.init es) d := by
      simp only [members, hrooms]
    simp only [deliveries, hem, List.flatMap_cons, List.flatMap_nil, List.append_nil, receivers,
      List.map_map, hm]
    exact List.map_id _
  rw [hd]
  refine ⟨List.Nodup.filter _ (members_nodup _ d (run_rooms_nodup es _ List.nodup_nil)), ?_⟩
  intro s
  have := mem_run_rooms s d es Relay.init
  simp only [Relay.init, List.not_mem_nil, decide_False] at this
  simp only [List.mem_filter, mem_members, Bool.not_eq_true', decide_eq_false_iff_not, inRoom]
  rw [← this]
  rfl

/-- The same for the room of the missing key, which only joining fills. -/
theorem fanout_of_emit_none (es : List Event) (c : SocketId) (e : Event)
    (m : Message) (hem : (step (run Relay.init es) e).emits = [⟨.roomExcept none c, m⟩])
    (hrooms : (step (run Relay.init es) e).relay.rooms = (run Relay.init es).rooms) (s : SocketId) :
    s ∈ (deliveries (run Relay.init es) e).map Prod.fst ↔ (joined s none es = true ∧ s ≠ c) := by
  rw [(fanout_of_emit es c none e m hem hrooms).2 s, inRoom, inRoomFrom_none, joined]

/-- A socket that has joined `d` is among the receivers of such an event of
another socket. -/
theorem fanout_of_emit_joined (es : List Event) (c : SocketId) (d : DocumentId) (e : Event)
    (m : Message) (hem : (step (run Relay.init es) e).emits = [⟨.roomExcept d c, m⟩])
    (hrooms : (step (run Relay.init es) e).relay.rooms = (run Relay.init es).rooms) (s : SocketId)
    (hjoined : joined s d es = true) (hother : s ≠ c) :
    s ∈ (deliveries (run Relay.init es) e).map Prod.fst :=
  ((fanout_of_emit es c d e m hem hrooms).2 s).mpr
    ⟨inRoomFrom_of_joinedFrom s d es false false id hjoined, hother⟩

theorem run_append (r : Relay) (es fs : List Event) :
    run r (es ++ fs) = run (run r es) fs := by
  induction es generalizing r with
  | nil => rfl
  | cons e es ih =>
    rw [List.cons_append, run, run]
    exact ih _

theorem emitLog_append (r : Relay) (es fs : List Event) :
    emitLog r (es ++ fs) = emitLog r es ++ emitLog (run r es) fs := by
  induction es generalizing r with
  | nil => rfl
  | cons e es ih =>
    rw [List.cons_append, emitLog, emitLog, run, ih, List.append_assoc]

/-! ## Lemmas on the durable documents -/

theorem canWrite_iff (document : Document) (u : UserId) :
    canWrite document u = true ↔
      (document.owner = u ∨
        ∃ c ∈ document.collaborators, c.user = u ∧ c.permissions = Permission.write) := by
  simp [canWrite]

theorem findById_storeWrite (store : Store) (d : Document)
    (h : (findById store d.id).isSome) : findById (storeWrite store d) d.id = some d := by
  have hany : store.any (fun x => decide (x.id = d.id)) = true := by
    obtain ⟨x, hx⟩ := Option.isSome_iff_exists.mp h
    have hmem := List.mem_of_find?_eq_some hx
    have hid := List.find?_some hx
    exact List.any_eq_true.mpr ⟨x, hmem, hid⟩
  unfold storeWrite findById
  rw [if_pos hany]
  clear h
  induction store with
  | nil => simp at hany
  | cons x rest ih =>
    by_cases hx : x.id = d.id
    · simp [List.find?, hx]
    · have hrest : rest.any (fun x => decide (x.id = d.id)) = true := by
        simpa [hx] using hany
      simp only [List.map_cons, hx, if_false, List.find?, decide_False]
      exact ih hrest

theorem applyBody_version (document : Document) (body : UpdateBody) :
    (applyBody document body).version = document.version + 1 := by
  unfold applyBody
  cases body.title <;> cases body.content <;> cases body.isPublic <;> rfl

theorem applyBody_id (document : Document) (body : UpdateBody) :
    (applyBody document body).id = document.id := by
  unfold applyBody
  cases body.title <;> cases body.content <;> cases body.isPublic <;> rfl

theorem findById_id (store : Store) (id : ObjectId) (document : Document)
    (h : findById store id = some document) : document.id = id := by
  have := List.find?_some h
  simpa using this

/-- The three ways `router.put('/:id')` ends for a stored document. -/
theorem putDocument_cases (now : Nat) (store : Store) (id : ObjectId) (u : UserId)
    (body : UpdateBody) (document : Document) (h : findById store id = some document) :
    putDocument now store id u body =
      if canWrite document u = false then (store, ⟨403, "No write permission", none⟩)
      else if validate (applyBody document body) = true then
        (storeWrite store { applyBody document body with lastModified := now },
          ⟨200, "Document updated successfully",
            some { applyBody document body with lastModified := now }⟩)
      else (store, ⟨500, "Server error", none⟩) := by
  unfold putDocument documentSave
  rw [h]
  cases hc : canWrite document u <;> cases hv : validate (applyBody document body) <;>
    simp [hc, hv]

/-- From process start, the entry of `d` exists and holds the content of the
last `text-change` for `d`. -/
theorem room_content_of_lastEdit (es : List Event) (d : DocumentId) (ch : Changes)
    (h : lastEdit d es = some ch) :
    ∃ st, mapGet (run Relay.init es).documentStates d = some st ∧ st.content = ch.content := by
  obtain ⟨h1, h2⟩ := run_lastEdit d es Relay.init none (by intro _ h; cases h) ch h
  obtain ⟨st, hst⟩ := Option.isSome_iff_exists.mp h2
  refine ⟨st, hst, ?_⟩
  simpa [contentOf, hst] using h1

theorem validate_applyBody_content (document : Document) (c : String) :
    validate (applyBody document ⟨none, some c, none⟩) = validate document := rfl

/-- A content-only save by a user allowed to write a valid stored document:
what is stored afterwards. -/
theorem putDocument_content (now : Nat) (store : Store) (id : ObjectId) (u : UserId)
    (c : String) (document : Document) (h : findById store id = some document)
    (hw : canWrite document u = true) (hv : validate document = true) :
    (putDocument now store id u ⟨none, some c, none⟩).2.status = 200 ∧
    findById (putDocument now store id u ⟨none, some c, none⟩).1 id
      = some { document with content := c, version := document.version + 1,
                             lastModified := now } := by
  rw [putDocument_cases now store id u _ document h]
  simp only [hw, validate_applyBody_content, hv, Bool.true_eq_false, if_false, if_true, true_and]
  have hid : document.id = id := findById_id store id document h
  have := findById_storeWrite store
    { applyBody document ⟨none, some c, none⟩ with lastModified := now }
    (by show (findById store document.id).isSome; rw [hid, h]; rfl)
  have hid2 : ({ applyBody document ⟨none, some c, none⟩ with lastModified := now } : Document).id
      = id := hid
  rw [hid2] at this
  exact this

/-- A call of `saveDocument` whose content equals the baseline after trimming
does nothing. -/
theorem saveDocument_unchanged (now : Nat) (id : ObjectId) (u : UserId)
    (online isAutoSave saving : Bool) (store : Store) (ed : Editor) (c l : String)
    (hl : ed.lastSavedContent = some l) (heq : jsTrim c = jsTrim l) :
    saveDocument now id u online isAutoSave (some c) saving store ed = (store, ed, []) := by
  simp [saveDocument, saveDocumentStart, hl, heq]

/-- A call of `saveDocument` that sends its request and is answered 200. -/
theorem saveDocument_saved (now : Nat) (id : ObjectId) (u : UserId) (isAutoSave : Bool)
    (store : Store) (ed : Editor) (c l : String)
    (hl : ed.lastSavedContent = some l) (hne : jsTrim c ≠ jsTrim l)
    (h200 : (putDocument now store id u ⟨none, some c, none⟩).2.status = 200) :
    (saveDocument now id u true isAutoSave (some c) false store ed).1
        = (putDocument now store id u ⟨none, some c, none⟩).1 ∧
    (saveDocument now id u true isAutoSave (some c) false store ed).2.1
        = { ed with lastSavedContent := some c, saving := false } := by
  simp [saveDocument, saveDocumentStart, saveDocumentFinish, hl, hne, h200]

/-- A save answered 200 found the document and stored it as updated. -/
theorem putDocument_ok (now : Nat) (store : Store) (id : ObjectId) (u : UserId)
    (body : UpdateBody) (h : (putDocument now store id u body).2.status = 200) :
    ∃ document, findById store id = some document ∧
      findById (putDocument now store id u body).1 id
        = some { applyBody document body with lastModified := now } := by
  cases hf : findById store id with
  | none => simp [putDocument, hf] at h
  | some document =>
    refine ⟨document, rfl, ?_⟩
    rw [putDocument_cases now store id u body document hf] at h ⊢
    cases hc : canWrite document u <;> cases hv : validate (applyBody document body) <;>
      simp [hc, hv] at h ⊢
    have hid : ({ applyBody document body with lastModified := now } : Document).id = id := by
      show (applyBody document body).id = id
      rw [applyBody_id, findById_id store id document hf]
    have := findById_storeWrite store { applyBody document body with lastModified := now }
      (by rw [hid, hf]; rfl)
    rw [hid] at this
    exact this

/-- After the given sockets have disconnected, what is left in `rooms` was there
before and belongs to none of them; `documentStates` is as it was. -/
theorem run_disconnects (sockets : List SocketId) (r : Relay) :
    (∀ p, p ∈ (run r (sockets.map Event.disconnect)).rooms → p ∈ r.rooms ∧ p.1 ∉ sockets) ∧
    (run r (sockets.map Event.disconnect)).documentStates = r.documentStates := by
  induction sockets generalizing r with
  | nil => exact ⟨fun p hp => ⟨hp, List.not_mem_nil _⟩, rfl⟩
  | cons s rest ih =>
    obtain ⟨h1, h2⟩ := ih (step r (.disconnect s)).relay
    refine ⟨?_, ?_⟩
    · intro p hp
      obtain ⟨hp1, hp2⟩ := h1 p hp
      simp only [step, onDisconnect, socketLeaveAll, List.mem_filter, Bool.not_eq_true',
        decide_eq_false_iff_not] at hp1
      refine ⟨hp1.1, ?_⟩
      intro hmem
      rcases List.mem_cons.mp hmem with h | h
      · exact hp1.2 h
      · exact hp2 h
    · exact h2

theorem step_join_states (r : Relay) (c : SocketId) (d : DocumentId) :
    (step r (.joinDocument c d)).relay.documentStates = r.documentStates :=
  onJoinDocument_states r c d

theorem socketJoin_idem (r : Relay) (c : SocketId) (d : DocumentId) :
    socketJoin (socketJoin r c d) c d = socketJoin r c d := by
  have hmem : (c, d) ∈ (socketJoin r c d).rooms := (mem_socketJoin r c c d d).mpr (Or.inr ⟨rfl, rfl⟩)
  generalize socketJoin r c d = q at hmem ⊢
  unfold socketJoin
  rw [if_pos hmem]

/-- The document stored under `id` after `router.put('/:id')`, for a stored
document: as updated when the answer is 200, as it was otherwise. -/
theorem findById_putDocument (now : Nat) (store : Store) (id : ObjectId) (u : UserId)
    (body : UpdateBody) (before : Document) (h : findById store id = some before) :
    findById (putDocument now store id u body).1 id
      = some (if (putDocument now store id u body).2.status = 200
          then { applyBody before body with lastModified := now } else before) := by
  rw [putDocument_cases now store id u body before h]
  cases hc : canWrite before u <;> cases hv : validate (applyBody before body) <;>
    simp [h]
  have hid : ({ applyBody before body with lastModified := now } : Document).id = id := by
    show (applyBody before body).id = id
    rw [applyBody_id, findById_id store id before h]
  have := findById_storeWrite store { applyBody before body with lastModified := now }
    (by rw [hid, h]; rfl)
  rw [hid] at this
  exact this

/-- Handling a mixed sequence: the relay goes through the socket events alone,
the documents through the route requests alone, and the deliveries are those
of the socket events. -/
theorem server_run_split (reqs : List Request) (s : Server) :
    (s.run reqs).relay = run s.relay (socketEvents reqs) ∧
    (s.run reqs).store = (s.run (routeRequests reqs)).store ∧
    s.log reqs = deliveryLog s.relay (socketEvents reqs) ∧
    ∀ r : Relay, (Server.run ⟨r, s.store⟩ (routeRequests reqs)).store
      = (s.run (routeRequests reqs)).store := by
  induction reqs generalizing s with
  | nil => exact ⟨rfl, rfl, rfl, fun _ => rfl⟩
  | cons q rest ih =>
    cases q with
    | socket e =>
      obtain ⟨h1, h2, h3, h4⟩ := ih (s.handle (.socket e)).1
      refine ⟨h1, ?_, ?_, ?_⟩
      · simp only [Server.run, routeRequests]
        rw [h2]
        exact (h4 s.relay).symm
      · simp only [Server.log, socketEvents, deliveryLog]
        rw [h3]
        rfl
      · intro r
        simp only [routeRequests]
        exact (h4 r).trans (h4 s.relay).symm
    | put now id u body =>
      obtain ⟨h1, h2, h3, h4⟩ := ih (s.handle (.put now id u body)).1
      refine ⟨h1, h2, h3, ?_⟩
      intro r
      simp only [routeRequests, Server.run]
      exact h4 r
    | postCollaborator now id u body =>
      obtain ⟨h1, h2, h3, h4⟩ := ih (s.handle (.postCollaborator now id u body)).1
      refine ⟨h1, h2, h3, ?_⟩
      intro r
      simp only [routeRequests, Server.run]
      exact h4 r
    | post now newId u body =>
      obtain ⟨h1, h2, h3, h4⟩ := ih (s.handle (.post now newId u body)).1
      refine ⟨h1, h2, h3, ?_⟩
      intro r
      simp only [routeRequests, Server.run]
      exact h4 r
    | get users id u =>
      obtain ⟨h1, h2, h3, h4⟩ := ih (s.handle (.get users id u)).1
      refine ⟨h1, h2, h3, ?_⟩
      intro r
      simp only [routeRequests, Server.run]
      exact h4 r
    | delete id u =>
      obtain ⟨h1, h2, h3, h4⟩ := ih (s.handle (.delete id u)).1
      refine ⟨h1, h2, h3, ?_⟩
      intro r
      simp only [routeRequests, Server.run]
      exact h4 r

/-! ## Lemmas on the collaborator lists -/

theorem mem_of_findById (store : Store) (id : ObjectId) (document : Document)
    (h : findById store id = some document) : document ∈ store :=
  List.mem_of_find?_eq_some h

theorem mem_storeWrite (store : Store) (d x : Document) (h : x ∈ storeWrite store d) :
    x = d ∨ x ∈ store := by
  unfold storeWrite at h
  split at h
  · obtain ⟨y, hy, hxy⟩ := List.mem_map.mp h
    by_cases hid : y.id = d.id
    · rw [if_pos hid] at hxy
      exact Or.inl hxy.symm
    · rw [if_neg hid] at hxy
      exact Or.inr (hxy ▸ hy)
  · rcases List.mem_append.mp h with h | h
    · exact Or.inr h
    · exact Or.inl (List.mem_singleton.mp h)

theorem applyBody_owner (document : Document) (body : UpdateBody) :
    (applyBody document body).owner = document.owner := by
  unfold applyBody
  cases body.title <;> cases body.content <;> cases body.isPublic <;> rfl

theorem applyBody_collaborators (document : Document) (body : UpdateBody) :
    (applyBody document body).collaborators = document.collaborators := by
  unfold applyBody
  cases body.title <;> cases body.content <;> cases body.isPublic <;> rfl

/-! ## Lemmas on the routes -/

theorem findById_append_new (store : Store) (d : Document)
    (h : store.any (fun x => decide (x.id = d.id)) = false) :
    findById (store ++ [d]) d.id = some d := by
  unfold findById
  induction store with
  | nil => simp
  | cons x rest ih =>
    simp only [List.any_cons, Bool.or_eq_false_iff, decide_eq_false_iff_not] at h
    simp only [List.cons_append, List.find?, h.1, decide_False]
    exact ih h.2

/-- A `POST /documents` answered 201 stored the document it answers with,
under the new id. -/
theorem postDocument_created (now : Nat) (newId : ObjectId) (store : Store) (u : UserId)
    (body : CreateBody) (h : (postDocument now newId store u body).2.status = 201) :
    ∃ title, body.title = some title ∧
      (postDocument now newId store u body).2.document
        = some ⟨newId, jsTrim title, body.content.getD "", u, [],
            body.isPublic.getD true, 0, now, now⟩ ∧
      (postDocument now newId store u body).1
        = store ++ [⟨newId, jsTrim title, body.content.getD "",
            u, [], body.isPublic.getD true, 0, now, now⟩] ∧
      findById (postDocument now newId store u body).1 newId
        = some ⟨newId, jsTrim title, body.content.getD "", u, [],
            body.isPublic.getD true, 0, now, now⟩ := by
  obtain ⟨t, c, p⟩ := body
  cases t with
  | none => simp [postDocument] at h
  | some title =>
    refine ⟨title, rfl, ?_⟩
    by_cases hbad : title = "" ∨ 100 < validatorLength title
    · simp [postDocument, hbad] at h
    · cases hv : validate ⟨newId, jsTrim title, c.getD "", u, [],
          p.getD true, 0, now, now⟩
      · simp [postDocument, hbad, documentInsert, hv] at h
      · cases hany : store.any (fun x => decide (x.id = newId))
        · have hfind := findById_append_new store
            ⟨newId, jsTrim title, c.getD "", u, [],
              p.getD true, 0, now, now⟩ hany
          have hany' : ∀ x ∈ store, ¬ x.id = newId := by
            intro x hx hid
            have : store.any (fun x => decide (x.id = newId)) = true :=
              List.any_eq_true.mpr ⟨x, hx, decide_eq_true hid⟩
            rw [hany] at this
            cases this
          simp only [postDocument, hbad, if_false, documentInsert, hv, if_true]
          simp only [List.any_eq_true, decide_eq_true_eq]
          rw [if_neg (by rintro ⟨x, hx, hid⟩; exact hany' x hx hid)]
          exact ⟨rfl, rfl, hfind⟩
        · have hex : ∃ x ∈ store, x.id = newId := by
            obtain ⟨x, hx, hid⟩ := List.any_eq_true.mp hany
            exact ⟨x, hx, by simpa using hid⟩
          simp only [postDocument, hbad, if_false, documentInsert, hv, if_true] at h
          simp only [List.any_eq_true, decide_eq_true_eq] at h
          rw [if_pos hex] at h
          simp at h

/-- On a list whose users all exist, `some` runs to its end and tells whether
the user has an entry. -/
theorem someCollaborator_of_exist (users : List UserId) (u : UserId) (cs : List Collaborator)
    (h : ∀ c ∈ cs, c.user ∈ users) :
    someCollaborator users u cs = some (cs.any (fun collab => decide (collab.user = u))) := by
  induction cs with
  | nil => rfl
  | cons c rest ih =>
    have hc : c.user ∈ users := h c (List.mem_cons_self _ _)
    have hrest := ih (fun x hx => h x (List.mem_cons_of_mem _ hx))
    have hpop : populateUser users c.user = some c.user := by simp [populateUser, hc]
    simp only [someCollaborator, hpop, List.any_cons]
    by_cases hu : c.user = u
    · simp [hu]
    · simp [hu, hrest]

/-- When the owner and the listed collaborators of a stored document all
exist, the fetch answers by `hasAccess`. -/
theorem getDocument_of_exist (users : List UserId) (store : Store) (id : ObjectId)
    (u : UserId) (document : Document) (h : findById store id = some document)
    (howner : document.owner ∈ users) (hcollab : ∀ c ∈ document.collaborators, c.user ∈ users) :
    getDocument users store id u
      = if hasAccess document u = true then ⟨200, "", some document⟩
        else ⟨403, "Access denied", none⟩ := by
  have hpop : populateUser users document.owner = some document.owner := by
    simp [populateUser, howner]
  have hsome := someCollaborator_of_exist users u document.collaborators hcollab
  by_cases ho : document.owner = u
  · simp only [getDocument, h, hpop]
    simp [ho, hasAccess]
  · cases hany : document.collaborators.any (fun collab => decide (collab.user = u))
    · rw [hany] at hsome
      simp only [getDocument, h, hpop, hsome]
      cases hp : document.isPublic <;> simp [ho, hasAccess, hany, hp]
    · rw [hany] at hsome
      simp only [getDocument, h, hpop, hsome]
      simp [ho, hasAccess, hany]

/-- A call of `saveDocument` of changed content whose closure sees `saving`
set does nothing. -/
theorem saveDocument_busy (now : Nat) (id : ObjectId) (u : UserId)
    (online isAutoSave : Bool) (store : Store) (ed : Editor) (c l : String)
    (hl : ed.lastSavedContent = some l) (hne : jsTrim c ≠ jsTrim l) :
    saveDocument now id u online isAutoSave (some c) true store ed = (store, ed, []) := by
  simp [saveDocument, saveDocumentStart, hl, hne]

/-- A call of `saveDocument` whose request does not reach the server writes
nothing and shows nothing. -/
theorem saveDocument_offline (now : Nat) (id : ObjectId) (u : UserId) (isAutoSave : Bool)
    (store : Store) (ed : Editor) (c l : String)
    (hl : ed.lastSavedContent = some l) (hne : jsTrim c ≠ jsTrim l) :
    saveDocument now id u false isAutoSave (some c) false store ed
      = (store, { ed with saving := false }, []) := by
  simp [saveDocument, saveDocumentStart, saveDocumentFinish, saveErrorToast, hl, hne]

/-- A save that is not answered 200 writes nothing. -/
theorem putDocument_fail (now : Nat) (store : Store) (id : ObjectId) (u : UserId)
    (body : UpdateBody) (h : (putDocument now store id u body).2.status ≠ 200) :
    (putDocument now store id u body).1 = store := by
  cases hf : findById store id with
  | none => simp [putDocument, hf]
  | some document =>
    rw [putDocument_cases now store id u body document hf] at h ⊢
    cases hc : canWrite document u <;> cases hv : validate (applyBody document body) <;>
      simp [hc, hv] at h ⊢

/-- A call of `saveDocument` changes the collection only through a request
that reaches the server and is answered 200. -/
theorem saveDocument_store (now : Nat) (id : ObjectId) (u : UserId)
    (online isAutoSave saving : Bool) (store : Store) (ed : Editor) (c l : String)
    (hl : ed.lastSavedContent = some l)
    (h : (saveDocument now id u online isAutoSave (some c) saving store ed).1 ≠ store) :
    jsTrim c ≠ jsTrim l ∧ saving = false ∧ online = true ∧
      (putDocument now store id u ⟨none, some c, none⟩).2.status = 200 := by
  by_cases heq : jsTrim c = jsTrim l
  · rw [saveDocument_unchanged now id u online isAutoSave saving store ed c l hl heq] at h
    exact absurd rfl h
  · cases saving with
    | true =>
      rw [saveDocument_busy now id u online isAutoSave store ed c l hl heq] at h
      exact absurd rfl h
    | false =>
      cases online with
      | false =>
        rw [saveDocument_offline now id u isAutoSave store ed c l hl heq] at h
        exact absurd rfl h
      | true =>
        refine ⟨heq, rfl, rfl, ?_⟩
        by_contra h200
        apply h
        have hfail := putDocument_fail now store id u ⟨none, some c, none⟩ h200
        simp only [saveDocument, saveDocumentStart, hl, heq, if_false, Bool.false_eq_true,
          if_true]
        exact hfail

/-! ## The relay: fan-out, versions, contents -/

/-- C1 fails on the code: `a` and `b` are connected and nobody has joined any
document; `a` sends a `text-change`, a `cursor-position` and a `typing` event
whose `documentId` is the socket id of `b`; each is delivered to `b`, which
has joined no document, that one included. -/
theorem relayed_event_reaches_own_id_room :
    joined "b" (some "b") [.connection "a", .connection "b"] = false ∧
    deliveries (run Relay.init [.connection "a", .connection "b"])
        (.textChange "a" (some ⟨some "b", some ⟨some "x"⟩, some "alice"⟩))
      = [("b", .textChange ⟨some "x"⟩ (some "alice") 1)] ∧
    deliveries (run Relay.init [.connection "a", .connection "b"])
        (.cursorPosition "a" (some ⟨some "b", some 4, some "alice"⟩))
      = [("b", .cursorPosition (some 4) (some "alice"))] ∧
    deliveries (run Relay.init [.connection "a", .connection "b"])
        (.typing "a" (some ⟨some "b", some true, some "alice"⟩))
      = [("b", .userTyping (some true) (some "alice"))] := by
  decide

/-- C2: starting from the empty `documentStates`, after any history holding
exactly `N = editCount d es` `text-change` events for `d`, among any other
events, the room state of `d` has version `N` (and there is none only if
`N = 0`); one more `text-change` for `d` leaves version `1` when `d` had no
room state, and the old version plus one otherwise. -/
theorem room_version_counts_edits (es : List Event) (d : DocumentId) (r : Relay)
    (s : SocketId) (ch : Changes) (u : Option String) :
    (match mapGet (run Relay.init es).documentStates d with
      | some st => st.version = editCount d es
      | none => editCount d es = 0) ∧
    (match mapGet r.documentStates d with
      | none => mapGet (step r (.textChange s (some ⟨d, some ch, u⟩))).relay.documentStates d
          = some { content := ch.content, version := 1 }
      | some st => mapGet (step r (.textChange s (some ⟨d, some ch, u⟩))).relay.documentStates d
          = some { content := ch.content, version := st.version + 1 }) := by
  constructor
  · have hv := run_version d es Relay.init
    have h0 : versionOf Relay.init d = 0 := rfl
    rw [h0, Nat.zero_add] at hv
    cases hg : mapGet (run Relay.init es).documentStates d with
    | some st =>
      simp only [versionOf, hg] at hv
      exact hv
    | none =>
      show editCount d es = 0
      cases hl : lastEdit d es with
      | none =>
        simp only [versionOf, hg] at hv
        exact hv.symm
      | some c0 =>
        have := (run_lastEdit d es Relay.init none (by intro _ h; cases h) c0 hl).2
        rw [hg] at this
        cases this
  · have he : editOf d (.textChange s (some ⟨d, some ch, u⟩)) = some ch := by simp [editOf]
    have := step_edit_get r d _ ch he
    cases hg : mapGet r.documentStates d with
    | none => simpa [versionOf, hg] using this
    | some st => simpa [versionOf, hg] using this

/-- C3: from any state and after any history whose last `text-change` for `d`
carried the content `ch.content`, the room state of `d` exists and its content
is exactly that content, whatever was stored or sent before. -/
theorem room_content_is_last_edit (r : Relay) (es : List Event) (d : DocumentId)
    (ch : Changes) (h : lastEdit d es = some ch) :
    ∃ st, mapGet (run r es).documentStates d = some st ∧ st.content = ch.content := by
  obtain ⟨h1, h2⟩ := run_lastEdit d es r none (by intro _ h; cases h) ch h
  obtain ⟨st, hst⟩ := Option.isSome_iff_exists.mp h2
  refine ⟨st, hst, ?_⟩
  simpa [contentOf, hst] using h1

/-- Witness of C3: two edits of one document, a join between them, from a
state that already held another content. -/
theorem room_content_is_last_edit_witness :
    lastEdit (some "doc")
        [.textChange "a" (some ⟨some "doc", some ⟨some "one"⟩, some "ua"⟩),
          .joinDocument "b" (some "doc"),
          .textChange "b" (some ⟨some "doc", some ⟨some "two"⟩, some "ub"⟩)]
      = some ⟨some "two"⟩ ∧
    ∃ st, mapGet (run ⟨[], [], [(some "doc", ⟨some "zero", 7⟩)]⟩
        [.textChange "a" (some ⟨some "doc", some ⟨some "one"⟩, some "ua"⟩),
          .joinDocument "b" (some "doc"),
          .textChange "b" (some ⟨some "doc", some ⟨some "two"⟩, some "ub"⟩)]).documentStates
        (some "doc") = some st ∧ st.content = (⟨some "two"⟩ : Changes).content :=
  ⟨by decide, room_content_is_last_edit _ _ _ _ (by decide)⟩

/-- C7: the `text-change` emit for an event carries that event's `changes`
(its content), its `userId`, and the version the room state of `d` has right
after the event; after a history `pre` from process start that version is the
number of earlier edits of `d` plus one, so the k-th edit goes out with
version k; and the emit takes its place in the log after every emit of the
earlier events and before every emit of the later ones. -/
theorem text_change_broadcast_payload (pre post : List Event) (c : SocketId)
    (d : DocumentId) (ch : Changes) (u : Option String) :
    (step (run Relay.init pre) (.textChange c (some ⟨d, some ch, u⟩))).emits
      = [⟨.roomExcept d c, .textChange ch u (editCount d pre + 1)⟩] ∧
    (∀ p ∈ deliveries (run Relay.init pre) (.textChange c (some ⟨d, some ch, u⟩)),
      p.2 = .textChange ch u (editCount d pre + 1)) ∧
    mapGet (step (run Relay.init pre) (.textChange c (some ⟨d, some ch, u⟩))).relay.documentStates d
      = some { content := ch.content, version := editCount d pre + 1 } ∧
    emitLog Relay.init (pre ++ .textChange c (some ⟨d, some ch, u⟩) :: post)
      = emitLog Relay.init pre
        ++ [⟨.roomExcept d c, .textChange ch u (editCount d pre + 1)⟩]
        ++ emitLog (step (run Relay.init pre) (.textChange c (some ⟨d, some ch, u⟩))).relay post := by
  have hv : versionOf (run Relay.init pre) d = editCount d pre := by
    have := run_version d pre Relay.init
    have h0 : versionOf Relay.init d = 0 := rfl
    rw [h0, Nat.zero_add] at this
    exact this
  have hem : (step (run Relay.init pre) (.textChange c (some ⟨d, some ch, u⟩))).emits
      = [⟨.roomExcept d c, .textChange ch u (editCount d pre + 1)⟩] := by
    simp only [step, onTextChange_edit, hv]
  refine ⟨hem, ?_, ?_, ?_⟩
  · intro p hp
    simp only [deliveries, hem, List.flatMap_cons, List.flatMap_nil, List.append_nil,
      List.mem_map] at hp
    obtain ⟨_, _, rfl⟩ := hp
    rfl
  · have he : editOf d (.textChange c (some ⟨d, some ch, u⟩)) = some ch := by simp [editOf]
    rw [step_edit_get _ d _ ch he, hv]
  · rw [emitLog_append, emitLog, hem, List.append_assoc]

/-- C8: on `join-document` from `c` for `d` the server emits `document-state`
exactly when `documentStates` has an entry for `d`; the message goes to `c`
alone and carries that entry, content and version; in a state reached from
process start by a history whose last edit of `d` carried `ch`, it carries
`ch.content` and the number of edits of `d`. -/
theorem join_sends_room_state (r : Relay) (es : List Event) (c : SocketId) (d : DocumentId)
    (ch : Changes) (h : lastEdit d es = some ch) :
    (deliveries r (.joinDocument c d) =
      match mapGet r.documentStates d with
      | some st => [(c, .documentState st)]
      | none => []) ∧
    ((step r (.joinDocument c d)).emits ≠ [] ↔ mapHas r.documentStates d = true) ∧
    deliveries (run Relay.init es) (.joinDocument c d)
      = [(c, .documentState { content := ch.content, version := editCount d es })] := by
  have hj : ∀ r : Relay, (socketJoin r c d).documentStates = r.documentStates := by
    intro r
    unfold socketJoin
    split <;> rfl
  have hd : ∀ r : Relay, deliveries r (.joinDocument c d) =
      match mapGet r.documentStates d with
      | some st => [(c, .documentState st)]
      | none => [] := by
    intro r
    simp only [deliveries, step, onJoinDocument, hj, mapHas_eq_isSome]
    cases mapGet r.documentStates d <;> simp [receivers]
  refine ⟨hd r, ?_, ?_⟩
  · simp only [step, onJoinDocument, hj, mapHas_eq_isSome]
    cases mapGet r.documentStates d <;> simp
  · obtain ⟨st, hst, hc⟩ := room_content_of_lastEdit es d ch h
    rw [hd, hst]
    have hv := run_version d es Relay.init
    have h0 : versionOf Relay.init d = 0 := rfl
    rw [h0, Nat.zero_add] at hv
    simp only [versionOf, hst] at hv
    cases st
    simp only at hc hv
    subst hc; subst hv
    rfl

/-- Witness of C8: after two edits of a document a third connection joins. -/
theorem join_sends_room_state_witness :
    lastEdit (some "doc")
        [.joinDocument "a" (some "doc"),
          .textChange "a" (some ⟨some "doc", some ⟨some "one"⟩, some "ua"⟩),
          .textChange "a" (some ⟨some "doc", some ⟨some "two"⟩, some "ua"⟩)]
      = some ⟨some "two"⟩ ∧
    deliveries (run Relay.init
        [.joinDocument "a" (some "doc"),
          .textChange "a" (some ⟨some "doc", some ⟨some "one"⟩, some "ua"⟩),
          .textChange "a" (some ⟨some "doc", some ⟨some "two"⟩, some "ua"⟩)])
        (.joinDocument "b" (some "doc"))
      = [("b", .documentState { content := some "two", version := 2 })] :=
  ⟨by decide, (join_sends_room_state Relay.init _ "b" (some "doc") ⟨some "two"⟩ (by decide)).2.2⟩

/-! ## The durable documents: who may save, and what a save writes -/

/-- C4, as stated, fails: the owner of a stored document sends a save whose
title is empty, or has 101 characters; the save neither succeeds nor is
answered 403, and nothing is written. -/
theorem owner_save_with_invalid_title_fails :
    findById [notes [] 0] "d1" = some (notes [] 0) ∧ (notes [] 0).owner = "alice" ∧
    (putDocument 20 [notes [] 0] "d1" "alice" ⟨some "", none, none⟩).2.status ≠ 200 ∧
    (putDocument 20 [notes [] 0] "d1" "alice" ⟨some "", none, none⟩).2.status ≠ 403 ∧
    (putDocument 20 [notes [] 0] "d1" "alice" ⟨some "", none, none⟩).1 = [notes [] 0] ∧
    (putDocument 20 [notes [] 0] "d1" "alice"
      ⟨some ⟨List.replicate 101 'a'⟩, none, none⟩).2.status ≠ 200 ∧
    (putDocument 20 [notes [] 0] "d1" "alice"
      ⟨some ⟨List.replicate 101 'a'⟩, none, none⟩).2.status ≠ 403 ∧
    (putDocument 20 [notes [] 0] "d1" "alice"
      ⟨some ⟨List.replicate 101 'a'⟩, none, none⟩).1 = [notes [] 0] := by
  decide

/-- C4, amended: for a stored document, a save requested by `u` succeeds if
and only if `u` is the owner or has a collaborator entry with permission
`write`, and the document as updated passes the schema validation; it is
answered 403, with nothing written, if and only if `u` is neither. -/
theorem save_succeeds_iff_authorized_and_valid (now : Nat) (store : Store) (id : ObjectId)
    (u : UserId) (body : UpdateBody) (document : Document)
    (h : findById store id = some document) :
    ((putDocument now store id u body).2.status = 200 ↔
      ((document.owner = u ∨
          ∃ c ∈ document.collaborators, c.user = u ∧ c.permissions = Permission.write) ∧
        validate (applyBody document body) = true)) ∧
    ((putDocument now store id u body).2.status = 403 ↔
      ¬ (document.owner = u ∨
          ∃ c ∈ document.collaborators, c.user = u ∧ c.permissions = Permission.write)) ∧
    ((putDocument now store id u body).2.status = 403 →
      (putDocument now store id u body).1 = store) := by
  rw [putDocument_cases now store id u body document h, ← canWrite_iff]
  cases hc : canWrite document u <;> cases hv : validate (applyBody document body) <;> simp

/-- Witness of C4, amended: a write collaborator saves new content. -/
theorem save_succeeds_iff_authorized_and_valid_witness :
    findById [notes [⟨"bob", .write⟩] 0] "d1" = some (notes [⟨"bob", .write⟩] 0) ∧
    (putDocument 20 [notes [⟨"bob", .write⟩] 0] "d1" "bob"
      ⟨none, some "Updated by collaborator!", none⟩).2.status = 200 :=
  ⟨by decide,
    (save_succeeds_iff_authorized_and_valid 20 [notes [⟨"bob", .write⟩] 0] "d1" "bob"
      ⟨none, some "Updated by collaborator!", none⟩ (notes [⟨"bob", .write⟩] 0)
      (by decide)).1.mpr (by decide)⟩

/-- C5: a save by a user who is not the owner and whose collaborator entries
all carry permission `read` is answered 403, and the store is left as it was:
the document is unchanged in every field. -/
theorem read_collaborator_save_denied (now : Nat) (store : Store) (id : ObjectId)
    (u : UserId) (body : UpdateBody) (document : Document)
    (h : findById store id = some document) (hown : document.owner ≠ u)
    (hread : ∃ c ∈ document.collaborators, c.user = u ∧ c.permissions = Permission.read)
    (honly : ∀ c ∈ document.collaborators, c.user = u → c.permissions = Permission.read) :
    (putDocument now store id u body).2 = ⟨403, "No write permission", none⟩ ∧
    (putDocument now store id u body).1 = store ∧
    findById (putDocument now store id u body).1 id = some document := by
  have hc : canWrite document u = false := by
    rw [Bool.eq_false_iff]
    intro hw
    rcases (canWrite_iff document u).mp hw with ho | ⟨c, hc, hu, hp⟩
    · exact hown ho
    · have := honly c hc hu
      rw [hp] at this
      cases this
  obtain ⟨_, _, _, _⟩ := hread
  rw [putDocument_cases now store id u body document h]
  simp [hc, h]

/-- Witness of C5: a read collaborator tries to replace the content. -/
theorem read_collaborator_save_denied_witness :
    findById [notes [⟨"carol", .read⟩] 3] "d1" = some (notes [⟨"carol", .read⟩] 3) ∧
    (putDocument 20 [notes [⟨"carol", .read⟩] 3] "d1" "carol" ⟨none, some "mine", none⟩).2
      = ⟨403, "No write permission", none⟩ ∧
    (putDocument 20 [notes [⟨"carol", .read⟩] 3] "d1" "carol" ⟨none, some "mine", none⟩).1
      = [notes [⟨"carol", .read⟩] 3] ∧
    findById (putDocument 20 [notes [⟨"carol", .read⟩] 3] "d1" "carol"
      ⟨none, some "mine", none⟩).1 "d1" = some (notes [⟨"carol", .read⟩] 3) :=
  ⟨by decide,
    read_collaborator_save_denied 20 [notes [⟨"carol", .read⟩] 3] "d1" "carol"
      ⟨none, some "mine", none⟩ (notes [⟨"carol", .read⟩] 3) (by decide) (by decide)
      ⟨⟨"carol", .read⟩, by decide, by decide, by decide⟩ (by decide)⟩

/-- C9: a save answered 200 leaves the stored document with a version one
above the version it had, with `lastModified` equal to the time of the save,
and the response carries that stored document. -/
theorem successful_save_bumps_version (now : Nat) (store : Store) (id : ObjectId)
    (u : UserId) (body : UpdateBody)
    (h : (putDocument now store id u body).2.status = 200) :
    ∃ before saved, findById store id = some before ∧
      (putDocument now store id u body).2.document = some saved ∧
      findById (putDocument now store id u body).1 id = some saved ∧
      saved.version = before.version + 1 ∧ saved.lastModified = now := by
  cases hf : findById store id with
  | none => simp [putDocument, hf] at h
  | some document =>
    rw [putDocument_cases now store id u body document hf] at h ⊢
    cases hc : canWrite document u <;> cases hv : validate (applyBody document body) <;>
      simp [hc, hv] at h ⊢
    have hid : ({ applyBody document body with lastModified := now } : Document).id = id := by
      show (applyBody document body).id = id
      rw [applyBody_id, findById_id store id document hf]
    have := findById_storeWrite store { applyBody document body with lastModified := now }
      (by rw [hid, hf]; rfl)
    rw [hid] at this
    exact ⟨this, applyBody_version document body⟩

/-- Witness of C9: the owner saves new content at time 20. -/
theorem successful_save_bumps_version_witness :
    (putDocument 20 [notes [] 3] "d1" "alice" ⟨none, some "hello world", none⟩).2.status = 200 ∧
    ∃ before saved,
      findById [notes [] 3] "d1" = some before ∧
      (putDocument 20 [notes [] 3] "d1" "alice" ⟨none, some "hello world", none⟩).2.document
        = some saved ∧
      findById (putDocument 20 [notes [] 3] "d1" "alice" ⟨none, some "hello world", none⟩).1 "d1"
        = some saved ∧
      saved.version = before.version + 1 ∧ saved.lastModified = 20 :=
  ⟨by decide,
    successful_save_bumps_version 20 [notes [] 3] "d1" "alice" ⟨none, some "hello world", none⟩
      (by decide)⟩

/-! ## The save path of the editor -/

/-- C6, as stated, fails. The owner opens a stored document and calls save
twice, with the content as fetched, or with a line break typed after it: no
call writes, and the durable version stays 3 instead of growing by one. With
changed content and a first request that does not reach the server, the first
call writes nothing and the second one writes; and with the `saving` state
set, neither call writes. -/
theorem save_twice_can_write_nothing :
    clickSave 20 "d1" "alice" true [notes [] 3] (fetchDocument (notes [] 3) Editor.mount)
      = ([notes [] 3], fetchDocument (notes [] 3) Editor.mount, []) ∧
    clickSave 30 "d1" "alice" true
        (clickSave 20 "d1" "alice" true [notes [] 3]
          (fetchDocument (notes [] 3) Editor.mount)).1
        (clickSave 20 "d1" "alice" true [notes [] 3]
          (fetchDocument (notes [] 3) Editor.mount)).2.1
      = ([notes [] 3], fetchDocument (notes [] 3) Editor.mount, []) ∧
    (clickSave 30 "d1" "alice" true
        (clickSave 20 "d1" "alice" true [notes [] 3]
          (handleContentChange "hello\n" (fetchDocument (notes [] 3) Editor.mount))).1
        (clickSave 20 "d1" "alice" true [notes [] 3]
          (handleContentChange "hello\n" (fetchDocument (notes [] 3) Editor.mount))).2.1).1
      = [notes [] 3] ∧
    (clickSave 20 "d1" "alice" false [notes [] 3] ⟨some "hello world", false, some "hello"⟩).1
      = [notes [] 3] ∧
    (clickSave 30 "d1" "alice" true
        (clickSave 20 "d1" "alice" false [notes [] 3]
          ⟨some "hello world", false, some "hello"⟩).1
        (clickSave 20 "d1" "alice" false [notes [] 3]
          ⟨some "hello world", false, some "hello"⟩).2.1).1
      = [{ notes [] 3 with content := "hello world", version := 4, lastModified := 30 }] ∧
    (clickSave 30 "d1" "alice" true
        (clickSave 20 "d1" "alice" true [notes [] 3]
          ⟨some "hello world", true, some "hello"⟩).1
        (clickSave 20 "d1" "alice" true [notes [] 3]
          ⟨some "hello world", true, some "hello"⟩).2.1).1
      = [notes [] 3] := by
  decide

/-- C6, amended: two calls of save in succession with the same content `c`,
by a user allowed to write a stored, valid document, make at most one durable
write: after both, the version is the old one or the old one plus one. Neither
call writes when `c` equals the editor's last-saved content after trimming, or
when the editor's `saving` state is set. Otherwise, when the first request
reaches the server, the first call writes once (version plus one,
`lastModified` the time of that call, the content stored as given) and the
second call leaves the collection as the first left it; when the first request
does not reach the server, the first call writes nothing, and the second call
writes once if its request arrives and nothing if it does not. -/
theorem save_twice_writes_at_most_once (now1 now2 : Nat) (id : ObjectId) (u : UserId)
    (online1 online2 : Bool) (store : Store) (ed : Editor) (document : Document) (c l : String)
    (hdoc : findById store id = some document)
    (hauth : document.owner = u ∨
      ∃ k ∈ document.collaborators, k.user = u ∧ k.permissions = Permission.write)
    (hvalid : validate document = true)
    (hc : ed.content = some c) (hl : ed.lastSavedContent = some l) :
    (∃ after, findById (clickSave now2 id u online2 (clickSave now1 id u online1 store ed).1
        (clickSave now1 id u online1 store ed).2.1).1 id = some after ∧
      (after.version = document.version ∨ after.version = document.version + 1)) ∧
    ((jsTrim c = jsTrim l ∨ ed.saving = true) →
      (clickSave now1 id u online1 store ed).1 = store ∧
      (clickSave now2 id u online2 (clickSave now1 id u online1 store ed).1
        (clickSave now1 id u online1 store ed).2.1).1 = store) ∧
    (jsTrim c ≠ jsTrim l → ed.saving = false → online1 = true →
      findById (clickSave now1 id u online1 store ed).1 id
        = some { document with content := c, version := document.version + 1,
                               lastModified := now1 } ∧
      (clickSave now2 id u online2 (clickSave now1 id u online1 store ed).1
        (clickSave now1 id u online1 store ed).2.1).1
        = (clickSave now1 id u online1 store ed).1) ∧
    (jsTrim c ≠ jsTrim l → ed.saving = false → online1 = false →
      (clickSave now1 id u online1 store ed).1 = store ∧
      (online2 = true →
        findById (clickSave now2 id u online2 (clickSave now1 id u online1 store ed).1
          (clickSave now1 id u online1 store ed).2.1).1 id
          = some { document with content := c, version := document.version + 1,
                                 lastModified := now2 }) ∧
      (online2 = false →
        (clickSave now2 id u online2 (clickSave now1 id u online1 store ed).1
          (clickSave now1 id u online1 store ed).2.1).1 = store)) := by
  have hw : canWrite document u = true := (canWrite_iff document u).mpr hauth
  obtain ⟨content, saving, lastSaved⟩ := ed
  simp only at hc hl
  subst hc hl
  have hquiet : (jsTrim c = jsTrim l ∨ saving = true) →
      clickSave now1 id u online1 store ⟨some c, saving, some l⟩
        = (store, ⟨some c, saving, some l⟩, []) ∧
      clickSave now2 id u online2 store ⟨some c, saving, some l⟩
        = (store, ⟨some c, saving, some l⟩, []) := by
    intro h
    by_cases heq : jsTrim c = jsTrim l
    · exact ⟨saveDocument_unchanged now1 id u online1 false _ store _ c l rfl heq,
        saveDocument_unchanged now2 id u online2 false _ store _ c l rfl heq⟩
    · have hs : saving = true := h.resolve_left heq
      subst hs
      exact ⟨saveDocument_busy now1 id u online1 false store _ c l rfl heq,
        saveDocument_busy now2 id u online2 false store _ c l rfl heq⟩
  have hfirst : jsTrim c ≠ jsTrim l →
      clickSave now1 id u true store ⟨some c, false, some l⟩
        = ((putDocument now1 store id u ⟨none, some c, none⟩).1, ⟨some c, false, some c⟩,
            (saveDocument now1 id u true false (some c) false store
              ⟨some c, false, some l⟩).2.2) := by
    intro hne
    obtain ⟨h200, _⟩ := putDocument_content now1 store id u c document hdoc hw hvalid
    obtain ⟨h1, h2⟩ :=
      saveDocument_saved now1 id u false store ⟨some c, false, some l⟩ c l rfl hne h200
    exact Prod.ext h1 (Prod.ext h2 rfl)
  have hoff : jsTrim c ≠ jsTrim l →
      clickSave now1 id u false store ⟨some c, false, some l⟩
        = (store, ⟨some c, false, some l⟩, []) := by
    intro hne
    exact saveDocument_offline now1 id u false store ⟨some c, false, some l⟩ c l rfl hne
  have hsecond : ∀ st : Store,
      clickSave now2 id u online2 st ⟨some c, false, some c⟩
        = (st, ⟨some c, false, some c⟩, []) := by
    intro st
    exact saveDocument_unchanged now2 id u online2 false false st _ c c rfl rfl
  have hretry : jsTrim c ≠ jsTrim l →
      (clickSave now2 id u true store ⟨some c, false, some l⟩).1
        = (putDocument now2 store id u ⟨none, some c, none⟩).1 := by
    intro hne
    obtain ⟨h200, _⟩ := putDocument_content now2 store id u c document hdoc hw hvalid
    exact (saveDocument_saved now2 id u false store ⟨some c, false, some l⟩ c l rfl hne
      h200).1
  have hretryOff : jsTrim c ≠ jsTrim l →
      (clickSave now2 id u false store ⟨some c, false, some l⟩).1 = store := by
    intro hne
    show (saveDocument now2 id u false false (some c) false store ⟨some c, false, some l⟩).1
      = store
    rw [saveDocument_offline now2 id u false store ⟨some c, false, some l⟩ c l rfl hne]
  have hput1 := (putDocument_content now1 store id u c document hdoc hw hvalid).2
  have hput2 := (putDocument_content now2 store id u c document hdoc hw hvalid).2
  refine ⟨?_, ?_, ?_, ?_⟩
  · by_cases hq : jsTrim c = jsTrim l ∨ saving = true
    · obtain ⟨h1, h2⟩ := hquiet hq
      rw [h1, h2]
      exact ⟨document, hdoc, Or.inl rfl⟩
    · have hne : jsTrim c ≠ jsTrim l := fun h => hq (Or.inl h)
      have hs : saving = false := by
        cases saving
        · rfl
        · exact absurd (Or.inr rfl) hq
      subst hs
      cases online1 with
      | true =>
        rw [hfirst hne, hsecond]
        exact ⟨_, hput1, Or.inr rfl⟩
      | false =>
        rw [hoff hne]
        cases online2 with
        | true =>
          rw [hretry hne]
          exact ⟨_, hput2, Or.inr rfl⟩
        | false =>
          rw [hretryOff hne]
          exact ⟨document, hdoc, Or.inl rfl⟩
  · intro hq
    obtain ⟨h1, h2⟩ := hquiet hq
    rw [h1, h2]
    exact ⟨rfl, rfl⟩
  · intro hne hs ho
    simp only at hs
    subst ho hs
    rw [hfirst hne, hsecond]
    exact ⟨hput1, rfl⟩
  · intro hne hs ho
    simp only at hs
    subst ho hs
    rw [hoff hne]
    refine ⟨rfl, ?_, ?_⟩
    · intro h2
      subst h2
      rw [hretry hne]
      exact hput2
    · intro h2
      subst h2
      exact hretryOff hne

/-- Witness of C6, amended: the owner types ` world` after `hello` and saves
twice; the first call stores version 4 at time 20, the second changes nothing. -/
theorem save_twice_writes_at_most_once_witness :
    findById [notes [] 3] "d1" = some (notes [] 3) ∧ jsTrim "hello world" ≠ jsTrim "hello" ∧
    findById (clickSave 20 "d1" "alice" true [notes [] 3]
        ⟨some "hello world", false, some "hello"⟩).1 "d1"
      = some { notes [] 3 with content := "hello world", version := 4, lastModified := 20 } ∧
    (clickSave 30 "d1" "alice" true
        (clickSave 20 "d1" "alice" true [notes [] 3] ⟨some "hello world", false, some "hello"⟩).1
        (clickSave 20 "d1" "alice" true [notes [] 3]
          ⟨some "hello world", false, some "hello"⟩).2.1).1
      = (clickSave 20 "d1" "alice" true [notes [] 3] ⟨some "hello world", false, some "hello"⟩).1 :=
  ⟨by decide, by decide,
    (save_twice_writes_at_most_once 20 30 "d1" "alice" true true [notes [] 3]
      ⟨some "hello world", false, some "hello"⟩ (notes [] 3) "hello world" "hello"
      (by decide) (Or.inl (by decide)) (by decide) rfl rfl).2.2.1 (by decide) rfl rfl⟩

/-- C10, as stated, fails, in three ways. A connection `a` edits document `d1`
to `draft` without saving; `b` opens the document (stored content `hello`),
joins and receives the room state, which its editor takes as last-saved
content; the save of `b` then sends nothing, although `draft` was never
stored. With the `saving` state set by the save of `hello there`, the save of
the further change `hello there!` sends nothing and returns, although that
content equals neither the stored nor the last-saved content. And a save of
changed content whose request does not reach the server writes nothing and
returns without a notification. -/
theorem save_skipped_on_room_content_and_while_saving :
    (deliveries (run Relay.init
          [.joinDocument "a" (some "d1"),
            .textChange "a" (some ⟨some "d1", some ⟨some "draft"⟩, some "alice"⟩)])
        (.joinDocument "b" (some "d1"))
      = [("b", .documentState ⟨some "draft", 1⟩)] ∧
    onDocumentState (some "") ⟨some "draft", 1⟩
        (fetchDocument (notes [⟨"bob", .write⟩] 0) Editor.mount)
      = ⟨some "draft", false, some "draft"⟩ ∧
    clickSave 20 "d1" "bob" true [notes [⟨"bob", .write⟩] 0] ⟨some "draft", false, some "draft"⟩
      = ([notes [⟨"bob", .write⟩] 0], ⟨some "draft", false, some "draft"⟩, []) ∧
    jsTrim "draft" ≠ jsTrim (notes [⟨"bob", .write⟩] 0).content) ∧
    (saveDocumentStart (some "hello there") false
        (handleContentChange "hello there" (fetchDocument (notes [] 0) Editor.mount))
      = (⟨some "hello there", true, some "hello"⟩, .request ⟨none, some "hello there", none⟩) ∧
    clickSave 20 "d1" "alice" true [notes [] 0]
        (handleContentChange "hello there!" ⟨some "hello there", true, some "hello"⟩)
      = ([notes [] 0], ⟨some "hello there!", true, some "hello"⟩, []) ∧
    jsTrim "hello there!" ≠ jsTrim "hello" ∧
    jsTrim "hello there!" ≠ jsTrim (notes [] 0).content) ∧
    (clickSave 20 "d1" "alice" false [notes [] 0] ⟨some "hello there", false, some "hello"⟩
      = ([notes [] 0], ⟨some "hello there", false, some "hello"⟩, []) ∧
    jsTrim "hello there" ≠ jsTrim (notes [] 0).content) := by
  decide

/-- C10, amended: a call of save with content `c` sends no request exactly
when `c` equals the editor's last-saved content `l` after trimming both, or
the `saving` state its closure sees is set; it then writes nothing, shows
nothing and leaves the editor as it was. In every other case it sends one
request carrying `c`, and the collection changes only if that request reaches
the server and is answered 200; a request that does not reach the server
writes nothing and shows nothing. The last-saved content is the stored content
after a fetch, and after a save answered 200 it is the content just stored. -/
theorem save_skips_iff_unchanged_or_busy (c l : String) (saving online isAutoSave : Bool)
    (ed : Editor) (now : Nat) (id : ObjectId) (u : UserId) (store : Store)
    (document : Document) (hl : ed.lastSavedContent = some l) :
    (requestOf (some c) saving ed = [] ↔ (jsTrim c = jsTrim l ∨ saving = true)) ∧
    (requestOf (some c) saving ed = [⟨none, some c, none⟩]
      ↔ (jsTrim c ≠ jsTrim l ∧ saving = false)) ∧
    ((jsTrim c = jsTrim l ∨ saving = true) →
      saveDocument now id u online isAutoSave (some c) saving store ed = (store, ed, [])) ∧
    ((saveDocument now id u online isAutoSave (some c) saving store ed).1 ≠ store →
      requestOf (some c) saving ed = [⟨none, some c, none⟩] ∧ online = true ∧
      (putDocument now store id u ⟨none, some c, none⟩).2.status = 200) ∧
    (fetchDocument document ed).lastSavedContent = some document.content ∧
    (jsTrim c ≠ jsTrim l →
      (putDocument now store id u ⟨none, some c, none⟩).2.status = 200 →
      (saveDocument now id u true isAutoSave (some c) false store ed).2.1.lastSavedContent
        = some c ∧
      ∃ saved, findById (saveDocument now id u true isAutoSave (some c) false store ed).1 id
        = some saved ∧ saved.content = c) ∧
    (jsTrim c ≠ jsTrim l →
      saveDocument now id u false isAutoSave (some c) false store ed
        = (store, { ed with saving := false }, [])) := by
  have hreq : requestOf (some c) saving ed
      = if jsTrim c = jsTrim l ∨ saving = true then [] else [⟨none, some c, none⟩] := by
    by_cases heq : jsTrim c = jsTrim l <;> cases saving <;>
      simp [requestOf, saveDocumentStart, hl, heq]
  refine ⟨?_, ?_, ?_, ?_, rfl, ?_,
    saveDocument_offline now id u isAutoSave store ed c l hl⟩
  · rw [hreq]
    by_cases hq : jsTrim c = jsTrim l ∨ saving = true <;> simp [hq]
  · rw [hreq]
    by_cases heq : jsTrim c = jsTrim l <;> cases saving <;> simp [heq]
  · by_cases heq : jsTrim c = jsTrim l <;> cases saving <;>
      simp [saveDocument, saveDocumentStart, hl, heq]
  · intro hchanged
    obtain ⟨hne, hs, ho, h200⟩ :=
      saveDocument_store now id u online isAutoSave saving store ed c l hl hchanged
    refine ⟨?_, ho, h200⟩
    rw [hreq, if_neg]
    rintro (h | h)
    · exact hne h
    · rw [hs] at h
      cases h
  · intro hne h200
    obtain ⟨h1, h2⟩ := saveDocument_saved now id u isAutoSave store ed c l hl hne h200
    rw [h1, h2]
    refine ⟨rfl, ?_⟩
    obtain ⟨doc0, _, hfind⟩ := putDocument_ok now store id u _ h200
    exact ⟨_, hfind, rfl⟩

/-- Witness of C10, amended: `alice` has typed ` world` after the fetched
`hello`; her save sends the new content and, answered 200, makes it the
last-saved content. -/
theorem save_skips_iff_unchanged_or_busy_witness :
    (⟨some "hello world", false, some "hello"⟩ : Editor).lastSavedContent = some "hello" ∧
    requestOf (some "hello world") false ⟨some "hello world", false, some "hello"⟩
      = [⟨none, some "hello world", none⟩] ∧
    (saveDocument 20 "d1" "alice" true false (some "hello world") false [notes [] 0]
      ⟨some "hello world", false, some "hello"⟩).2.1.lastSavedContent = some "hello world" :=
  ⟨rfl,
    (save_skips_iff_unchanged_or_busy "hello world" "hello" false true false
      ⟨some "hello world", false, some "hello"⟩ 20 "d1" "alice" [notes [] 0] (notes [] 0)
      rfl).2.1.mpr ⟨by decide, rfl⟩,
    ((save_skips_iff_unchanged_or_busy "hello world" "hello" false true false
      ⟨some "hello world", false, some "hello"⟩ 20 "d1" "alice" [notes [] 0] (notes [] 0)
      rfl).2.2.2.2.2.1 (by decide) (by decide)).1⟩

/-! ## The relay: what presence, malformed payloads and joins do to the state -/

/-- C12: a `cursor-position`, `typing` or `disconnect` event, whatever its
payload, leaves `documentStates` exactly as it was; and after every member of
the room of `d` has disconnected the room is empty and `documentStates` is
still as it was, so room state that existed is there with the same content
and version. -/
theorem presence_and_disconnect_keep_room_state (r : Relay) (c : SocketId)
    (cursor : Option CursorData) (typing : Option TypingData) (d : DocumentId) :
    (step r (.cursorPosition c cursor)).relay.documentStates = r.documentStates ∧
    (step r (.typing c typing)).relay.documentStates = r.documentStates ∧
    (step r (.disconnect c)).relay.documentStates = r.documentStates ∧
    members (run r ((members r d).map Event.disconnect)) d = [] ∧
    (run r ((members r d).map Event.disconnect)).documentStates = r.documentStates ∧
    mapGet (run r ((members r d).map Event.disconnect)).documentStates d
      = mapGet r.documentStates d := by
  obtain ⟨h1, h2⟩ := run_disconnects (members r d) r
  refine ⟨?_, ?_, rfl, ?_, h2, by rw [h2]⟩
  · cases cursor <;> rfl
  · cases typing <;> rfl
  · rw [List.eq_nil_iff_forall_not_mem]
    intro s hs
    rw [mem_members] at hs
    obtain ⟨hin, hout⟩ := h1 (s, d) hs
    exact hout ((mem_members r s d).mpr hin)

/-- C13, as stated, fails: the message relayed for a `typing` or
`cursor-position` event has no `documentId` field, which the payload received
has. -/
theorem relayed_presence_drops_documentId :
    ((step Relay.init (.typing "a" (some ⟨some "d1", some true, some "alice"⟩))).emits.map
        (fun em => em.message.fieldNames) = [["isTyping", "userId"]] ∧
      (⟨some "d1", some true, some "alice"⟩ : TypingData).fieldNames
        = ["documentId", "isTyping", "userId"]) ∧
    ((step Relay.init (.cursorPosition "a" (some ⟨some "d1", some 4, some "alice"⟩))).emits.map
        (fun em => em.message.fieldNames) = [["position", "userId"]] ∧
      (⟨some "d1", some 4, some "alice"⟩ : CursorData).fieldNames
        = ["documentId", "position", "userId"]) := by
  decide

/-- C13, amended: for a `typing` resp. `cursor-position` event the server makes
one emit, to the room of the payload's `documentId` without the sender, under
the event name `user-typing` resp. `cursor-position`; the message carries the
`isTyping` resp. `position` and the `userId` received, unchanged, and has the
fields of the payload received but `documentId`. -/
theorem relayed_presence_payload (r : Relay) (c : SocketId) (d : DocumentId)
    (ty : Option Bool) (pos : Option Nat) (u : Option String) :
    ((step r (.typing c (some ⟨d, ty, u⟩))).emits = [⟨.roomExcept d c, .userTyping ty u⟩] ∧
      (Message.userTyping ty u).eventName = "user-typing" ∧
      (Message.userTyping ty u).fieldNames
        = (TypingData.fieldNames ⟨d, ty, u⟩).filter (fun f => f != "documentId")) ∧
    ((step r (.cursorPosition c (some ⟨d, pos, u⟩))).emits
        = [⟨.roomExcept d c, .cursorPosition pos u⟩] ∧
      (Message.cursorPosition pos u).eventName = "cursor-position" ∧
      (Message.cursorPosition pos u).fieldNames
        = (CursorData.fieldNames ⟨d, pos, u⟩).filter (fun f => f != "documentId")) := by
  refine ⟨⟨rfl, rfl, ?_⟩, ⟨rfl, rfl, ?_⟩⟩
  · show ["isTyping", "userId"]
      = List.filter (fun f => f != "documentId") ["documentId", "isTyping", "userId"]
    decide
  · show ["position", "userId"]
      = List.filter (fun f => f != "documentId") ["documentId", "position", "userId"]
    decide

/-- C14, as stated, fails: a `text-change` without `documentId`, at process
start, creates a room-state entry under the missing key; and once a connection
has joined under the missing key, such an event is delivered to it. -/
theorem text_change_without_documentId_is_applied :
    (step Relay.init (.textChange "a" (some ⟨none, some ⟨some "x"⟩, some "alice"⟩))).relay.documentStates
      = [(none, ⟨some "x", 1⟩)] ∧
    deliveries (run Relay.init [.joinDocument "b" none])
        (.textChange "a" (some ⟨none, some ⟨some "x"⟩, some "alice"⟩))
      = [("b", .textChange ⟨some "x"⟩ (some "alice") 1)] := by
  decide

/-- C14, amended: a `text-change` whose payload has no `documentId` but carries
`changes` is handled like any other, under the missing key: no error is
raised, the entry of that key holds the new content under the next version,
the entry of every named document is as it was, the emit goes to the room of
the missing key without the sender, and from process start it is delivered to
exactly the connections that joined under the missing key, the sender apart. -/
theorem text_change_without_documentId (r : Relay) (es : List Event) (c : SocketId)
    (ch : Changes) (u : Option String) (name : String) (s : SocketId) :
    (step r (.textChange c (some ⟨none, some ch, u⟩))).threw = false ∧
    mapGet (step r (.textChange c (some ⟨none, some ch, u⟩))).relay.documentStates none
      = some { content := ch.content, version := versionOf r none + 1 } ∧
    mapGet (step r (.textChange c (some ⟨none, some ch, u⟩))).relay.documentStates (some name)
      = mapGet r.documentStates (some name) ∧
    (step r (.textChange c (some ⟨none, some ch, u⟩))).emits
      = [⟨.roomExcept none c, .textChange ch u (versionOf r none + 1)⟩] ∧
    (s ∈ (deliveries (run Relay.init es) (.textChange c (some ⟨none, some ch, u⟩))).map Prod.fst
      ↔ (joined s none es = true ∧ s ≠ c)) := by
  refine ⟨?_, ?_, ?_, ?_, ?_⟩
  · simp only [step, onTextChange_edit]
  · exact step_edit_get r none _ ch (by simp [editOf])
  · simp only [step, onTextChange_edit, mapGet_mapSet]
    rw [if_neg (by simp), mapGet_ensured_other r none (some name) (by simp)]
  · simp only [step, onTextChange_edit]
  · exact fanout_of_emit_none es c _
      (.textChange ch u (versionOf (run Relay.init es) none + 1))
      (by simp only [step, onTextChange_edit]) (by simp only [step, onTextChange_edit]) s

/-- C15, as stated, fails: after the first `join-document` for a document, at
process start, there is no room state for it. -/
theorem join_creates_no_room_state :
    (step Relay.init (.joinDocument "a" (some "d1"))).relay.documentStates = [] ∧
    mapHas (step Relay.init (.joinDocument "a" (some "d1"))).relay.documentStates (some "d1")
      = false := by
  decide

/-- C15, amended: room state is created by the first edit only. A
`join-document` leaves `documentStates` as it was, so a document without room
state has none after the join; after a `text-change` for the document, room
state for it exists. -/
theorem room_state_created_by_first_edit (r : Relay) (c : SocketId) (d : DocumentId)
    (ch : Changes) (u : Option String) :
    (step r (.joinDocument c d)).relay.documentStates = r.documentStates ∧
    mapHas (step r (.joinDocument c d)).relay.documentStates d = mapHas r.documentStates d ∧
    mapHas (step r (.textChange c (some ⟨d, some ch, u⟩))).relay.documentStates d = true := by
  refine ⟨step_join_states r c d, by rw [step_join_states], ?_⟩
  rw [mapHas_eq_isSome, step_edit_get r d _ ch (by simp [editOf])]
  rfl

/-- C16: joining is idempotent: after `c` has joined `d`, a second
`join-document` of `c` for `d` leaves the whole relay state as it is, room
membership and `documentStates` alike. -/
theorem join_twice_is_join_once (r : Relay) (c : SocketId) (d : DocumentId) :
    (step (step r (.joinDocument c d)).relay (.joinDocument c d)).relay
      = (step r (.joinDocument c d)).relay ∧
    (step (step r (.joinDocument c d)).relay (.joinDocument c d)).relay.rooms
      = (step r (.joinDocument c d)).relay.rooms ∧
    (step (step r (.joinDocument c d)).relay (.joinDocument c d)).relay.documentStates
      = (step r (.joinDocument c d)).relay.documentStates := by
  have h : (step (step r (.joinDocument c d)).relay (.joinDocument c d)).relay
      = (step r (.joinDocument c d)).relay := by
    simp only [step, onJoinDocument_relay, socketJoin_idem]
  exact ⟨h, by rw [h], by rw [h]⟩

/-! ## Relay and documents side by side -/

/-- C17: a socket event, a `text-change` among them, leaves the documents
collection as it was, every document with its content, version and
`lastModified`; a save, whatever its answer, leaves the relay state as it
was. Over any sequence of events and requests the documents end as the route
requests alone leave them, the relay state ends as the socket events alone
leave it, and the deliveries are those of the socket events alone, whatever
the saves before and after them answer. -/
theorem relay_and_documents_are_independent (s : Server) (reqs : List Request) (e : Event)
    (now : Nat) (id : ObjectId) (u : UserId) (body : UpdateBody) :
    (s.handle (.socket e)).1.store = s.store ∧
    (s.handle (.socket e)).2.deliveries = deliveries s.relay e ∧
    (s.handle (.put now id u body)).1.relay = s.relay ∧
    (s.run reqs).store = (s.run (routeRequests reqs)).store ∧
    (s.run reqs).relay = run s.relay (socketEvents reqs) ∧
    s.log reqs = deliveryLog s.relay (socketEvents reqs) := by
  obtain ⟨h1, h2, h3, _⟩ := server_run_split reqs s
  exact ⟨rfl, rfl, rfl, h2, h1, h3⟩

/-- C18: the relay checks no permission. Two runs of the server that start
from the same relay state and receive the same socket events, with any
documents collections and any route requests in between, end in the same
relay state and make the same deliveries; so from process start a connection
`s` that has joined `d` gets the `text-change` that any other connection `c`
sends for `d` under any `userId`, whatever the collection holds about owners
and collaborators. -/
theorem relay_ignores_the_documents (s1 s2 : Server) (reqs1 reqs2 : List Request)
    (store : Store) (es : List Event) (c s : SocketId) (d : DocumentId) (ch : Changes)
    (u : Option String) (hrelay : s1.relay = s2.relay)
    (hevents : socketEvents reqs1 = socketEvents reqs2)
    (hjoined : joined s d es = true) (hother : s ≠ c) :
    (s1.run reqs1).relay = (s2.run reqs2).relay ∧
    s1.log reqs1 = s2.log reqs2 ∧
    (s, Message.textChange ch u (editCount d es + 1)) ∈
      (Server.handle ⟨run Relay.init es, store⟩
        (.socket (.textChange c (some ⟨d, some ch, u⟩)))).2.deliveries := by
  obtain ⟨h1, _, h3, _⟩ := server_run_split reqs1 s1
  obtain ⟨k1, _, k3, _⟩ := server_run_split reqs2 s2
  refine ⟨by rw [h1, k1, hrelay, hevents], by rw [h3, k3, hrelay, hevents], ?_⟩
  have hv : versionOf (run Relay.init es) d = editCount d es := by
    have := run_version d es Relay.init
    have h0 : versionOf Relay.init d = 0 := rfl
    rw [h0, Nat.zero_add] at this
    exact this
  have hem : (step (run Relay.init es) (.textChange c (some ⟨d, some ch, u⟩))).emits
      = [⟨.roomExcept d c, .textChange ch u (editCount d es + 1)⟩] := by
    simp only [step, onTextChange_edit, hv]
  have hmem := fanout_of_emit_joined es c d _ _ hem
    (by simp only [step, onTextChange_edit]) s hjoined hother
  simp only [Server.handle]
  simp only [deliveries, hem, List.flatMap_cons, List.flatMap_nil, List.append_nil,
    List.map_map, List.mem_map] at hmem ⊢
  obtain ⟨a, ha, rfl⟩ := hmem
  exact ⟨a, ha, rfl⟩

/-- Witness of C18: `bob` joins a document whose stored collaborator list does
not name him, and gets the edit a user without any permission broadcasts; the
same events give the same relay state with and without a save between them. -/
theorem relay_ignores_the_documents_witness :
    (⟨Relay.init, [notes [] 0]⟩ : Server).relay = (⟨Relay.init, []⟩ : Server).relay ∧
    socketEvents [.socket (.joinDocument "sb" (some "d1")),
        .put 20 "d1" "alice" ⟨none, some "x", none⟩]
      = socketEvents [.socket (.joinDocument "sb" (some "d1"))] ∧
    joined "sb" (some "d1") [.joinDocument "sb" (some "d1")] = true ∧ "sb" ≠ "sc" ∧
    (Server.run ⟨Relay.init, [notes [] 0]⟩ [.socket (.joinDocument "sb" (some "d1")),
        .put 20 "d1" "alice" ⟨none, some "x", none⟩]).relay
      = (Server.run ⟨Relay.init, []⟩ [.socket (.joinDocument "sb" (some "d1"))]).relay ∧
    ("sb", Message.textChange ⟨some "x"⟩ (some "carol") 1) ∈
      (Server.handle ⟨run Relay.init [.joinDocument "sb" (some "d1")], [notes [] 0]⟩
        (.socket (.textChange "sc" (some ⟨some "d1", some ⟨some "x"⟩, some "carol"⟩)))).2.deliveries :=
  ⟨rfl, by decide, by decide, by decide,
    (relay_ignores_the_documents ⟨Relay.init, [notes [] 0]⟩ ⟨Relay.init, []⟩
      [.socket (.joinDocument "sb" (some "d1")), .put 20 "d1" "alice" ⟨none, some "x", none⟩]
      [.socket (.joinDocument "sb" (some "d1"))] [notes [] 0]
      [.joinDocument "sb" (some "d1")] "sc" "sb" (some "d1") ⟨some "x"⟩ (some "carol")
      rfl (by decide) (by decide) (by decide)).1,
    (relay_ignores_the_documents ⟨Relay.init, [notes [] 0]⟩ ⟨Relay.init, []⟩
      [.socket (.joinDocument "sb" (some "d1")), .put 20 "d1" "alice" ⟨none, some "x", none⟩]
      [.socket (.joinDocument "sb" (some "d1"))] [notes [] 0]
      [.joinDocument "sb" (some "d1")] "sc" "sb" (some "d1") ⟨some "x"⟩ (some "carol")
      rfl (by decide) (by decide) (by decide)).2.2⟩

/-! ## What the routes write -/

/-- C19 fails on the code: the owner adds `bob` as a collaborator, and then
changes the permission of `bob`; both requests are answered 200 and write the
document, with `lastModified` refreshed, and the version stays 3. -/
theorem add_collaborator_keeps_version :
    addCollaborator 20 [notes [] 3] "d1" "alice" ⟨some "bob", some "write"⟩
      = ([{ notes [⟨"bob", .write⟩] 3 with lastModified := 20 }],
          ⟨200, "Collaborator added successfully",
            some { notes [⟨"bob", .write⟩] 3 with lastModified := 20 }⟩) ∧
    addCollaborator 30 [notes [⟨"bob", .write⟩] 3] "d1" "alice" ⟨some "bob", some "read"⟩
      = ([{ notes [⟨"bob", .read⟩] 3 with lastModified := 30 }],
          ⟨200, "Collaborator added successfully",
            some { notes [⟨"bob", .read⟩] 3 with lastModified := 30 }⟩) ∧
    (putDocument 20 [notes [] 3] "d1" "alice" ⟨none, none, some true⟩).1
      = [{ notes [] 3 with isPublic := true, version := 4, lastModified := 20 }] := by
  decide

/-- C20: after a save of a stored document, whatever its answer, each of
`title`, `content` and `isPublic` that the request does not supply has the
value it had, and the owner and the collaborator list are as they were; when
the answer is 200, the content and the visibility the request supplies are
stored as given, and the title as given, trimmed. -/
theorem save_changes_supplied_fields_only (now : Nat) (store : Store) (id : ObjectId)
    (u : UserId) (body : UpdateBody) (before : Document)
    (h : findById store id = some before) :
    ∃ after, findById (putDocument now store id u body).1 id = some after ∧
      (body.title = none → after.title = before.title) ∧
      (body.content = none → after.content = before.content) ∧
      (body.isPublic = none → after.isPublic = before.isPublic) ∧
      after.owner = before.owner ∧ after.collaborators = before.collaborators ∧
      ((putDocument now store id u body).2.status = 200 →
        (∀ t, body.title = some t → after.title = jsTrim t) ∧
        (∀ c, body.content = some c → after.content = c) ∧
        (∀ p, body.isPublic = some p → after.isPublic = p)) := by
  refine ⟨_, findById_putDocument now store id u body before h, ?_⟩
  obtain ⟨t, c, p⟩ := body
  by_cases hs : (putDocument now store id u ⟨t, c, p⟩).2.status = 200
  · rw [if_pos hs]
    cases t <;> cases c <;> cases p <;> simp [applyBody]
  · rw [if_neg hs]
    simp [hs]

/-- Witness of C20: the owner toggles the visibility, sending `isPublic` only. -/
theorem save_changes_supplied_fields_only_witness :
    findById [notes [⟨"bob", .read⟩] 3] "d1" = some (notes [⟨"bob", .read⟩] 3) ∧
    ∃ after, findById (putDocument 20 [notes [⟨"bob", .read⟩] 3] "d1" "alice"
        ⟨none, none, some true⟩).1 "d1" = some after ∧
      after.title = "Notes" ∧ after.content = "hello" ∧ after.isPublic = true ∧
      after.owner = "alice" ∧ after.collaborators = [⟨"bob", .read⟩] := by
  refine ⟨by decide, ?_⟩
  obtain ⟨after, h1, h2, h3, _, h5, h6, h7⟩ :=
    save_changes_supplied_fields_only 20 [notes [⟨"bob", .read⟩] 3] "d1" "alice"
      ⟨none, none, some true⟩ (notes [⟨"bob", .read⟩] 3) (by decide)
  exact ⟨after, h1, h2 rfl, h3 rfl, (h7 (by decide)).2.2 true rfl, h5, h6⟩

/-! ## The auto-save timer -/

/-- C11 fails on the code. `alice` opens a document with content `hello` and
changes it to `v1` at 0 ms and to `v2` at 1000 ms; at 3000 ms the timer runs
and the one request sent carries `v1`, which is what gets stored, while the
editor shows `v2`. And after the single change to `v1`, 2000 ms of quiet bring
no request at all. -/
theorem autosave_sends_the_content_before_the_last_change :
    isBurst [(0, "v1"), (1000, "v2")] = true ∧
    advance "d1" "alice" true 3000
        (runChanges "d1" "alice" true (Session.opened (notes [] 0) [notes [] 0])
          [(0, "v1"), (1000, "v2")])
      = ⟨⟨some "v2", false, some "v1"⟩, none,
          [{ notes [] 0 with content := "v1", version := 1, lastModified := 3000 }],
          [⟨none, some "v1", none⟩]⟩ ∧
    advance "d1" "alice" true 2000
        (runChanges "d1" "alice" true (Session.opened (notes [] 0) [notes [] 0]) [(0, "v1")])
      = ⟨⟨some "v1", false, some "hello"⟩, none, [notes [] 0], []⟩ := by
  decide

/-! ## The routes: answers, access, invariants -/

/-- C21 fails on the code: a save by the owner with an empty title, or with
a title of 101 characters, is answered 500 `Server error`, not 400; nothing
is written. A save for an id that is not stored is answered 404 with nothing
written, and `POST /documents` answers the same empty title with 400. -/
theorem invalid_title_save_answers_500 :
    putDocument 20 [notes [] 0] "d1" "alice" ⟨some "", none, none⟩
      = ([notes [] 0], ⟨500, "Server error", none⟩) ∧
    putDocument 20 [notes [] 0] "d1" "alice" ⟨some ⟨List.replicate 101 'a'⟩, none, none⟩
      = ([notes [] 0], ⟨500, "Server error", none⟩) ∧
    putDocument 20 [notes [] 0] "d9" "alice" ⟨none, some "x", none⟩
      = ([notes [] 0], ⟨404, "Document not found", none⟩) ∧
    postDocument 20 "d2" [notes [] 0] "alice" ⟨some "", none, none⟩
      = ([notes [] 0], ⟨400, "Validation failed", none⟩) := by
  decide

/-- C22: for a stored document, `DELETE` by `u` is answered 200 if and only if
`u` is the owner, and then no document is stored under the id any more; any
other user, a write collaborator too, is answered 403 and the collection is
left as it was, the document in it. -/
theorem delete_only_by_owner (store : Store) (id : ObjectId) (u : UserId)
    (document : Document) (h : findById store id = some document) :
    ((deleteDocument store id u).2.status = 200 ↔ document.owner = u) ∧
    (findById (deleteDocument store id u).1 id = none ↔ document.owner = u) ∧
    (document.owner = u → ∀ x, x ∈ (deleteDocument store id u).1 ↔ (x ∈ store ∧ x.id ≠ id)) ∧
    (document.owner ≠ u →
      deleteDocument store id u = (store, ⟨403, "Only owner can delete document", none⟩) ∧
      findById (deleteDocument store id u).1 id = some document) := by
  have hfilter : findById (store.filter (fun d => !decide (d.id = id))) id = none := by
    unfold findById
    rw [List.find?_eq_none]
    intro x hx
    have := (List.mem_filter.mp hx).2
    simpa using this
  by_cases hown : document.owner = u
  · simp [deleteDocument, h, hown, hfilter]
  · simp [deleteDocument, h, hown]

/-- Witness of C22: a write collaborator is refused, the owner deletes. -/
theorem delete_only_by_owner_witness :
    findById [notes [⟨"bob", .write⟩] 0] "d1" = some (notes [⟨"bob", .write⟩] 0) ∧
    deleteDocument [notes [⟨"bob", .write⟩] 0] "d1" "bob"
      = ([notes [⟨"bob", .write⟩] 0], ⟨403, "Only owner can delete document", none⟩) ∧
    findById (deleteDocument [notes [⟨"bob", .write⟩] 0] "d1" "alice").1 "d1" = none :=
  ⟨by decide,
    ((delete_only_by_owner [notes [⟨"bob", .write⟩] 0] "d1" "bob" (notes [⟨"bob", .write⟩] 0)
      (by decide)).2.2.2 (by decide)).1,
    (delete_only_by_owner [notes [⟨"bob", .write⟩] 0] "d1" "alice" (notes [⟨"bob", .write⟩] 0)
      (by decide)).2.1.mpr (by decide)⟩

/-- C23 fails on the code: the owner creates a document and sends her own id,
spelled in upper case, to the add-collaborator route; the request is answered
200 and the stored collaborator list names the owner. Spelled as in the
token, the same id is refused with 400. -/
theorem owner_listed_under_another_spelling :
    (Server.run ⟨Relay.init, []⟩
        [.post 1 "d1" "aaaaaaaaaaaaaaaaaaaaaaaa" ⟨some "T", none, none⟩,
          .postCollaborator 2 "d1" "aaaaaaaaaaaaaaaaaaaaaaaa"
            ⟨some "AAAAAAAAAAAAAAAAAAAAAAAA", some "write"⟩]).store
      = [⟨"d1", "T", "", "aaaaaaaaaaaaaaaaaaaaaaaa", [⟨"aaaaaaaaaaaaaaaaaaaaaaaa", .write⟩],
          true, 0, 2, 1⟩] ∧
    (addCollaborator 2 [⟨"d1", "T", "", "aaaaaaaaaaaaaaaaaaaaaaaa", [], true, 0, 1, 1⟩] "d1"
        "aaaaaaaaaaaaaaaaaaaaaaaa" ⟨some "AAAAAAAAAAAAAAAAAAAAAAAA", some "write"⟩).2.status
      = 200 ∧
    (addCollaborator 2 [⟨"d1", "T", "", "aaaaaaaaaaaaaaaaaaaaaaaa", [], true, 0, 1, 1⟩] "d1"
        "aaaaaaaaaaaaaaaaaaaaaaaa" ⟨some "aaaaaaaaaaaaaaaaaaaaaaaa", some "write"⟩).2
      = ⟨400, "Cannot add yourself as a collaborator", none⟩ := by
  decide

/-- C24: when a save request fails with a response (a status outside 2xx), an
error toast is shown exactly when the status is 500 or above, 401, 403 or 404,
and then it is one error toast; when it fails without a response, no toast is
shown. -/
theorem save_failure_toast (content : Option String) (isAutoSave : Bool) (resp : Response)
    (ed : Editor) (hfailed : ¬ (200 ≤ resp.status ∧ resp.status < 300)) :
    ((saveDocumentFinish content isAutoSave (some resp) ed).2 ≠ [] ↔
      (500 ≤ resp.status ∨ resp.status = 401 ∨ resp.status = 403 ∨ resp.status = 404)) ∧
    ((saveDocumentFinish content isAutoSave (some resp) ed).2 = [] ∨
      ∃ text, (saveDocumentFinish content isAutoSave (some resp) ed).2 = [.error text]) ∧
    (saveDocumentFinish content isAutoSave none ed).2 = [] := by
  have h : (saveDocumentFinish content isAutoSave (some resp) ed).2
      = saveErrorToast (some resp.status) := by
    simp only [saveDocumentFinish, if_neg hfailed]
  rw [h]
  refine ⟨?_, ?_, rfl⟩
  · unfold saveErrorToast
    by_cases h5 : 500 ≤ resp.status
    · simp [h5]
    · by_cases h1 : resp.status = 401
      · simp [h1]
      · by_cases h3 : resp.status = 403
        · simp [h3]
        · by_cases h4 : resp.status = 404
          · simp [h4]
          · simp [h5, h1, h3, h4]
  · unfold saveErrorToast
    simp only [ge_iff_le]
    split_ifs <;> simp

/-- Witness of C24: a 403 brings the permission toast. -/
theorem save_failure_toast_witness :
    ¬ (200 ≤ (⟨403, "No write permission", none⟩ : Response).status ∧
        (⟨403, "No write permission", none⟩ : Response).status < 300) ∧
    (saveDocumentFinish (some "x") true (some ⟨403, "No write permission", none⟩)
      ⟨some "x", true, some "hello"⟩).2 ≠ [] :=
  ⟨by decide,
    (save_failure_toast (some "x") true ⟨403, "No write permission", none⟩
      ⟨some "x", true, some "hello"⟩ (by decide)).1.mpr (Or.inr (Or.inr (Or.inl rfl)))⟩

/-- C25, as stated, fails: the owner adds a collaborator id that names no
user, which the route stores unchecked, and then `carol`; `carol`, a listed
collaborator, and `bob`, who is not listed, fetch the private document and
are both answered 500, neither the document nor 403. -/
theorem fetch_fails_on_unknown_collaborator :
    (addCollaborator 20 [notes [] 0] "d1" "alice" ⟨some "ghost", some "read"⟩).2.status = 200 ∧
    (Server.run ⟨Relay.init, [notes [] 0]⟩
        [.postCollaborator 20 "d1" "alice" ⟨some "ghost", some "read"⟩,
          .postCollaborator 20 "d1" "alice" ⟨some "carol", some "read"⟩]).store
      = [{ notes [⟨"ghost", .read⟩, ⟨"carol", .read⟩] 0 with lastModified := 20 }] ∧
    getDocument ["alice", "bob", "carol"]
        [{ notes [⟨"ghost", .read⟩, ⟨"carol", .read⟩] 0 with lastModified := 20 }] "d1" "carol"
      = ⟨500, "Server error", none⟩ ∧
    getDocument ["alice", "bob", "carol"]
        [{ notes [⟨"ghost", .read⟩, ⟨"carol", .read⟩] 0 with lastModified := 20 }] "d1" "bob"
      = ⟨500, "Server error", none⟩ := by
  decide

/-- C25, amended: for a stored document whose owner and listed collaborators
all exist as users, `GET` by `u` answers 200 with the document if and only if
`u` is the owner, or has a collaborator entry of any permission, or the
document is public; otherwise it answers 403. A user who is not the owner and
whose entries all carry `read` fetches such a document, private or not, and
is refused the save. -/
theorem fetch_access (users : List UserId) (store : Store) (id : ObjectId) (u : UserId)
    (document : Document) (now : Nat) (body : UpdateBody)
    (h : findById store id = some document) (howner : document.owner ∈ users)
    (hcollab : ∀ c ∈ document.collaborators, c.user ∈ users) :
    (getDocument users store id u = ⟨200, "", some document⟩ ↔
      (document.owner = u ∨ (∃ c ∈ document.collaborators, c.user = u) ∨
        document.isPublic = true)) ∧
    (¬ (document.owner = u ∨ (∃ c ∈ document.collaborators, c.user = u) ∨
        document.isPublic = true) ↔
      getDocument users store id u = ⟨403, "Access denied", none⟩) ∧
    (document.owner ≠ u → (∃ c ∈ document.collaborators, c.user = u) →
      (∀ c ∈ document.collaborators, c.user = u → c.permissions = Permission.read) →
      getDocument users store id u = ⟨200, "", some document⟩ ∧
      (putDocument now store id u body).2.status = 403) := by
  have hacc : hasAccess document u = true ↔
      (document.owner = u ∨ (∃ c ∈ document.collaborators, c.user = u) ∨
        document.isPublic = true) := by
    simp [hasAccess, or_assoc]
  have hget := getDocument_of_exist users store id u document h howner hcollab
  refine ⟨?_, ?_, ?_⟩
  · rw [← hacc, hget]
    cases hasAccess document u <;> simp
  · rw [← hacc, hget]
    cases hasAccess document u <;> simp
  · intro hown hentry honly
    constructor
    · rw [hget, if_pos (hacc.mpr (Or.inr (Or.inl hentry)))]
    · have hc : canWrite document u = false := by
        rw [Bool.eq_false_iff]
        intro hw
        rcases (canWrite_iff document u).mp hw with ho | ⟨c, hc, hu, hp⟩
        · exact hown ho
        · have := honly c hc hu
          rw [hp] at this
          cases this
      rw [putDocument_cases now store id u body document h]
      simp [hc]

/-- Witness of C25, amended: `carol`, a read collaborator of a private
document, fetches it and is refused the save. -/
theorem fetch_access_witness :
    findById [notes [⟨"carol", .read⟩] 0] "d1" = some (notes [⟨"carol", .read⟩] 0) ∧
    (notes [⟨"carol", .read⟩] 0).owner ∈ ["alice", "carol"] ∧
    (∀ c ∈ (notes [⟨"carol", .read⟩] 0).collaborators, c.user ∈ ["alice", "carol"]) ∧
    (notes [⟨"carol", .read⟩] 0).isPublic = false ∧
    getDocument ["alice", "carol"] [notes [⟨"carol", .read⟩] 0] "d1" "carol"
      = ⟨200, "", some (notes [⟨"carol", .read⟩] 0)⟩ ∧
    (putDocument 20 [notes [⟨"carol", .read⟩] 0] "d1" "carol" ⟨none, some "x", none⟩).2.status
      = 403 :=
  ⟨by decide, by decide, by decide, by decide,
    (fetch_access ["alice", "carol"] [notes [⟨"carol", .read⟩] 0] "d1" "carol"
      (notes [⟨"carol", .read⟩] 0) 20 ⟨none, some "x", none⟩ (by decide) (by decide)
      (by decide)).2.2 (by decide) ⟨⟨"carol", .read⟩, by decide, by decide⟩ (by decide)⟩

/-- C26: a `POST /documents` whose body has no `isPublic`, when it creates a
document (answer 201), stores it under the new id with `isPublic = true`, and
answers with it. -/
theorem created_public_by_default (now : Nat) (newId : ObjectId) (store : Store)
    (u : UserId) (title content : Option String)
    (h : (postDocument now newId store u ⟨title, content, none⟩).2.status = 201) :
    ∃ saved, (postDocument now newId store u ⟨title, content, none⟩).2.document = some saved ∧
      findById (postDocument now newId store u ⟨title, content, none⟩).1 newId = some saved ∧
      saved ∈ (postDocument now newId store u ⟨title, content, none⟩).1 ∧
      saved.isPublic = true ∧ saved.owner = u := by
  obtain ⟨t, _, h1, h2, h3⟩ := postDocument_created now newId store u ⟨title, content, none⟩ h
  refine ⟨_, h1, h3, ?_, rfl, rfl⟩
  rw [h2]
  exact List.mem_append_right _ (List.mem_singleton.mpr rfl)

/-- Witness of C26: `bob` creates a document, sending a title only. -/
theorem created_public_by_default_witness :
    (postDocument 5 "d2" [notes [] 0] "bob" ⟨some "Plan", none, none⟩).2.status = 201 ∧
    ∃ saved, (postDocument 5 "d2" [notes [] 0] "bob" ⟨some "Plan", none, none⟩).2.document
        = some saved ∧
      findById (postDocument 5 "d2" [notes [] 0] "bob" ⟨some "Plan", none, none⟩).1 "d2"
        = some saved ∧
      saved ∈ (postDocument 5 "d2" [notes [] 0] "bob" ⟨some "Plan", none, none⟩).1 ∧
      saved.isPublic = true ∧ saved.owner = "bob" :=
  ⟨by decide, created_public_by_default 5 "d2" [notes [] 0] "bob" (some "Plan") none (by decide)⟩

/-- C27, as stated, fails: `bob`, a write collaborator listed after an entry
whose id names no user, saves new content and is answered 200; his fetch of
the document right after is answered 500 and returns no content. -/
theorem fetch_after_save_fails_on_unknown_collaborator :
    (putDocument 20 [notes [⟨"ghost", .read⟩, ⟨"bob", .write⟩] 0] "d1" "bob"
      ⟨none, some "new text", none⟩).2.status = 200 ∧
    getDocument ["alice", "bob"]
        (putDocument 20 [notes [⟨"ghost", .read⟩, ⟨"bob", .write⟩] 0] "d1" "bob"
          ⟨none, some "new text", none⟩).1 "d1" "bob"
      = ⟨500, "Server error", none⟩ := by
  decide

/-- C27, amended: when a save of content `c` to a document whose owner and
listed collaborators all exist as users is answered 200, a fetch of the
document by the same user on the collection the save left answers 200 with a
document whose content is `c`, character for character. -/
theorem save_then_fetch (users : List UserId) (now : Nat) (store : Store) (id : ObjectId)
    (u : UserId) (title : Option String) (c : String) (isPublic : Option Bool)
    (document : Document) (hdoc : findById store id = some document)
    (howner : document.owner ∈ users)
    (hcollab : ∀ k ∈ document.collaborators, k.user ∈ users)
    (h : (putDocument now store id u ⟨title, some c, isPublic⟩).2.status = 200) :
    ∃ saved, getDocument users (putDocument now store id u ⟨title, some c, isPublic⟩).1 id u
        = ⟨200, "", some saved⟩ ∧ saved.content = c := by
  obtain ⟨d0, hf, hsaved⟩ := putDocument_ok now store id u _ h
  rw [hdoc] at hf
  cases hf
  have hw : canWrite document u = true := by
    rw [putDocument_cases now store id u _ document hdoc] at h
    cases hc : canWrite document u
    · simp [hc] at h
    · rfl
  have ho := applyBody_owner document ⟨title, some c, isPublic⟩
  have hcs := applyBody_collaborators document ⟨title, some c, isPublic⟩
  refine ⟨{ applyBody document ⟨title, some c, isPublic⟩ with lastModified := now }, ?_, ?_⟩
  · have hacc : hasAccess
        { applyBody document ⟨title, some c, isPublic⟩ with lastModified := now } u = true := by
      rcases (canWrite_iff document u).mp hw with hown | ⟨k, hk, hku, _⟩
      · simp [hasAccess, ho, hown]
      · have : (document.collaborators.any fun collab => decide (collab.user = u)) = true :=
          List.any_eq_true.mpr ⟨k, hk, decide_eq_true hku⟩
        simp [hasAccess, hcs, this]
    have howner' : ({ applyBody document ⟨title, some c, isPublic⟩ with
        lastModified := now } : Document).owner ∈ users := by
      show (applyBody document ⟨title, some c, isPublic⟩).owner ∈ users
      rw [ho]
      exact howner
    have hcollab' : ∀ k ∈ ({ applyBody document ⟨title, some c, isPublic⟩ with
        lastModified := now } : Document).collaborators, k.user ∈ users := by
      show ∀ k ∈ (applyBody document ⟨title, some c, isPublic⟩).collaborators, k.user ∈ users
      rw [hcs]
      exact hcollab
    rw [getDocument_of_exist users _ id u _ hsaved howner' hcollab', if_pos hacc]
  · show (applyBody document ⟨title, some c, isPublic⟩).content = c
    cases title <;> cases isPublic <;> rfl

/-- Witness of C27, amended: content with blanks around it comes back as sent. -/
theorem save_then_fetch_witness :
    findById [notes [⟨"bob", .write⟩] 0] "d1" = some (notes [⟨"bob", .write⟩] 0) ∧
    (putDocument 20 [notes [⟨"bob", .write⟩] 0] "d1" "bob"
      ⟨none, some "  two words \n", none⟩).2.status = 200 ∧
    ∃ saved, getDocument ["alice", "bob"] (putDocument 20 [notes [⟨"bob", .write⟩] 0] "d1" "bob"
        ⟨none, some "  two words \n", none⟩).1 "d1" "bob" = ⟨200, "", some saved⟩ ∧
      saved.content = "  two words \n" :=
  ⟨by decide, by decide,
    save_then_fetch ["alice", "bob"] 20 [notes [⟨"bob", .write⟩] 0] "d1" "bob" none
      "  two words \n" none (notes [⟨"bob", .write⟩] 0) (by decide) (by decide) (by decide)
      (by decide)⟩

/-- C28: a `text-change` whose payload names `d`, with or without `changes`,
leaves the room state of every other document as it was, content and
version, and makes no entry for any other document. -/
theorem text_change_touches_one_document (r : Relay) (c : SocketId) (d other : DocumentId)
    (chs : Option Changes) (u : Option String) (h : other ≠ d) :
    mapGet (step r (.textChange c (some ⟨d, chs, u⟩))).relay.documentStates other
      = mapGet r.documentStates other ∧
    mapHas (step r (.textChange c (some ⟨d, chs, u⟩))).relay.documentStates other
      = mapHas r.documentStates other := by
  have hne : d ≠ other := fun hd => h hd.symm
  have hget : mapGet (step r (.textChange c (some ⟨d, chs, u⟩))).relay.documentStates other
      = mapGet r.documentStates other := by
    cases chs with
    | none =>
      simp only [step, onTextChange_noChanges]
      exact mapGet_ensured_other r d other hne
    | some ch =>
      simp only [step, onTextChange_edit, mapGet_mapSet, if_neg hne]
      exact mapGet_ensured_other r d other hne
  exact ⟨hget, by rw [mapHas_eq_isSome, mapHas_eq_isSome, hget]⟩

/-- Witness of C28: an edit of `d1` beside the room state of `d2`. -/
theorem text_change_touches_one_document_witness :
    (some "d2" : DocumentId) ≠ some "d1" ∧
    mapGet (step ⟨[], [], [(some "d2", ⟨some "kept", 4⟩)]⟩
        (.textChange "a" (some ⟨some "d1", some ⟨some "x"⟩, none⟩))).relay.documentStates
        (some "d2")
      = mapGet [(some "d2", (⟨some "kept", 4⟩ : DocState))] (some "d2") :=
  ⟨by decide,
    (text_change_touches_one_document ⟨[], [], [(some "d2", ⟨some "kept", 4⟩)]⟩ "a" (some "d1")
      (some "d2") (some ⟨some "x"⟩) none (by decide)).1⟩

/-- C29 fails on the code: the owner adds a user with `read` and then sends
the same id, spelled in upper case, with `write`; the request is answered 200
and the stored list has two entries for that user. Spelled as stored, the
same request changes the permission of the one entry. -/
theorem collaborator_listed_twice_under_another_spelling :
    (Server.run ⟨Relay.init, []⟩
        [.post 1 "d1" "aaaaaaaaaaaaaaaaaaaaaaaa" ⟨some "T", none, none⟩,
          .postCollaborator 2 "d1" "aaaaaaaaaaaaaaaaaaaaaaaa"
            ⟨some "bbbbbbbbbbbbbbbbbbbbbbbb", some "read"⟩,
          .postCollaborator 3 "d1" "aaaaaaaaaaaaaaaaaaaaaaaa"
            ⟨some "BBBBBBBBBBBBBBBBBBBBBBBB", some "write"⟩]).store
      = [⟨"d1", "T", "", "aaaaaaaaaaaaaaaaaaaaaaaa",
          [⟨"bbbbbbbbbbbbbbbbbbbbbbbb", .read⟩, ⟨"bbbbbbbbbbbbbbbbbbbbbbbb", .write⟩],
          true, 0, 3, 1⟩] ∧
    (addCollaborator 3
        [⟨"d1", "T", "", "aaaaaaaaaaaaaaaaaaaaaaaa", [⟨"bbbbbbbbbbbbbbbbbbbbbbbb", .read⟩],
          true, 0, 2, 1⟩] "d1" "aaaaaaaaaaaaaaaaaaaaaaaa"
        ⟨some "BBBBBBBBBBBBBBBBBBBBBBBB", some "write"⟩).2.status = 200 ∧
    (addCollaborator 3
        [⟨"d1", "T", "", "aaaaaaaaaaaaaaaaaaaaaaaa", [⟨"bbbbbbbbbbbbbbbbbbbbbbbb", .read⟩],
          true, 0, 2, 1⟩] "d1" "aaaaaaaaaaaaaaaaaaaaaaaa"
        ⟨some "bbbbbbbbbbbbbbbbbbbbbbbb", some "write"⟩).1
      = [⟨"d1", "T", "", "aaaaaaaaaaaaaaaaaaaaaaaa", [⟨"bbbbbbbbbbbbbbbbbbbbbbbb", .write⟩],
          true, 0, 3, 1⟩] := by
  decide

/-- C30, as stated, fails: at process start a `text-change` that names `d1`
and carries no `changes` makes the entry `{ content: '', version: 0 }` for
`d1` and then throws, without an emit: the handler fails with the room-state
map changed. -/
theorem text_change_without_changes_leaves_an_entry :
    step Relay.init (.textChange "a" (some ⟨some "d1", none, some "alice"⟩))
      = ⟨⟨[], [], [(some "d1", ⟨some "", 0⟩)]⟩, [], true⟩ ∧
    (step Relay.init (.textChange "a" (some ⟨some "d1", none, some "alice"⟩))).relay.documentStates
      ≠ Relay.init.documentStates := by
  decide

/-- C30, amended: the `text-change` handler ends in one of three ways. For a
missing payload it throws with the state untouched. For a payload that
carries `changes` it completes: the entry of the payload's `documentId` holds
the new content under the version plus one, and one notification is emitted,
to the room without the sender. For a payload without `changes` it throws
after the entry of the `documentId` has been ensured: `documentStates` is as
it was when it has that entry, and has the new entry
`{ content: '', version: 0 }` when it has not; nothing is emitted. -/
theorem text_change_outcomes (r : Relay) (c : SocketId) (d : DocumentId) (ch : Changes)
    (u : Option String) :
    step r (.textChange c none) = ⟨r, [], true⟩ ∧
    ((step r (.textChange c (some ⟨d, some ch, u⟩))).threw = false ∧
      mapGet (step r (.textChange c (some ⟨d, some ch, u⟩))).relay.documentStates d
        = some { content := ch.content, version := versionOf r d + 1 } ∧
      (step r (.textChange c (some ⟨d, some ch, u⟩))).emits
        = [⟨.roomExcept d c, .textChange ch u (versionOf r d + 1)⟩]) ∧
    ((step r (.textChange c (some ⟨d, none, u⟩))).threw = true ∧
      (step r (.textChange c (some ⟨d, none, u⟩))).emits = [] ∧
      (step r (.textChange c (some ⟨d, none, u⟩))).relay.documentStates
        = (if mapHas r.documentStates d = true then r.documentStates
            else mapSet r.documentStates d { content := some "", version := 0 }) ∧
      (step r (.textChange c (some ⟨d, none, u⟩))).relay.rooms = r.rooms) := by
  refine ⟨rfl, ⟨?_, ?_, ?_⟩, ?_⟩
  · simp only [step, onTextChange_edit]
  · exact step_edit_get r d _ ch (by simp [editOf])
  · simp only [step, onTextChange_edit]
  · simp only [step, onTextChange_noChanges, ensured]
    exact ⟨trivial, trivial, trivial, trivial⟩

end CodTech
